import Mathlib

/-!
Shallow embedding of the Catan rules engine of this repository.

The data model follows `game-types.js` (createInitialGameState, createPlayer,
createTile, createNode, createEdge, createPort and the helper functions),
the command handlers follow the `CatanGameEngine` class, the board generator
follows the board-generation module (`generateTiles`, `generateNodesAndEdges`,
`generatePorts`, `axialToPixel`, `getHexCorners`), the trading code follows
`TradingManager` and `EnhancedTradingSystem`, and the development-card code
follows `DevelopmentCardManager`.

JavaScript numbers that hold counts are embedded as `Int` (so that the
nonnegativity of resource holdings is a real invariant, not a typing
artifact); array indexing `a[i]` is embedded as `List.get?` with JavaScript
`undefined`-property-access failures (TypeError) surfacing as error results;
`Math.random()` draws are oracle parameters; pixel coordinates, which in the
source are IEEE doubles of the exact form `a + b*sqrt 3` with integer `a, b`,
are embedded exactly as such pairs, with `Math.round` computed exactly.
Thrown errors carry the state at throw time, since a JavaScript `throw` does
not roll back mutations already performed on `this.gameState`.
-/

namespace Catan

/-- The five tradeable resources, in the insertion order of the
`player.resources` object of `createPlayer`. -/
inductive Res
  | wood | brick | sheep | wheat | ore
deriving DecidableEq, Repr

/-- A tile resource: one of the five resources or the desert. -/
inductive TileKind
  | res (r : Res)
  | desert
deriving DecidableEq, Repr

/-- Resource holdings, the `resources` map of a player. -/
structure Resources where
  wood : Int
  brick : Int
  sheep : Int
  wheat : Int
  ore : Int
deriving DecidableEq, Repr

def Resources.get (m : Resources) : Res → Int
  | .wood => m.wood
  | .brick => m.brick
  | .sheep => m.sheep
  | .wheat => m.wheat
  | .ore => m.ore

def Resources.set (m : Resources) : Res → Int → Resources
  | .wood, v => { m with wood := v }
  | .brick, v => { m with brick := v }
  | .sheep, v => { m with sheep := v }
  | .wheat, v => { m with wheat := v }
  | .ore, v => { m with ore := v }

def Resources.add (m : Resources) (r : Res) (n : Int) : Resources :=
  m.set r (m.get r + n)

def Resources.zero : Resources := ⟨0, 0, 0, 0, 0⟩

/-- The development card kinds of `DEV_CARD_TYPES`. -/
inductive DevCardType
  | knight | roadBuilding | monopoly | yearOfPlenty | victoryPoint
deriving DecidableEq, Repr

/-- Development card holdings, the `developmentCards` map of a player. -/
structure DevCards where
  knight : Int
  roadBuilding : Int
  monopoly : Int
  yearOfPlenty : Int
  victoryPoint : Int
deriving DecidableEq, Repr

def DevCards.get (m : DevCards) : DevCardType → Int
  | .knight => m.knight
  | .roadBuilding => m.roadBuilding
  | .monopoly => m.monopoly
  | .yearOfPlenty => m.yearOfPlenty
  | .victoryPoint => m.victoryPoint

def DevCards.add (m : DevCards) : DevCardType → Int → DevCards
  | .knight, n => { m with knight := m.knight + n }
  | .roadBuilding, n => { m with roadBuilding := m.roadBuilding + n }
  | .monopoly, n => { m with monopoly := m.monopoly + n }
  | .yearOfPlenty, n => { m with yearOfPlenty := m.yearOfPlenty + n }
  | .victoryPoint, n => { m with victoryPoint := m.victoryPoint + n }

/-- `building` field of a node: absent, a settlement, or a city. -/
inductive Building
  | settlement | city
deriving DecidableEq, Repr

/-- Port types of `PORT_TYPES`: generic 3:1 or a 2:1 port for one resource. -/
inductive PortType
  | generic
  | special (r : Res)
deriving DecidableEq, Repr

/-- Phases of `GAME_PHASES`. -/
inductive Phase
  | setup | mainGame | gameOver
deriving DecidableEq, Repr

/-- Turn phases: the four of `TURN_PHASES` plus the ad-hoc string
`discard_cards` that `handleRobberRoll` stores in `turnPhase`. -/
inductive TurnPhase
  | diceRoll | robberPlacement | actions | endTurnP | discardCardsP
deriving DecidableEq, Repr

/-- A hex tile, `createTile`. -/
structure Tile where
  id : Nat
  q : Int
  r : Int
  resource : TileKind
  token : Option Nat
  hasRobber : Bool
  isBlocked : Bool
deriving DecidableEq, Repr

/-- A settlement vertex, `createNode` (the pixel coordinates are kept only
in the board-generation development, where they are exact). -/
structure Node where
  id : Nat
  adjacentTiles : List Nat
  neighborNodes : List Nat
  building : Option Building
  owner : Option Nat
  port : Option PortType
deriving DecidableEq, Repr

/-- A road slot, `createEdge`. -/
structure Edge where
  id : Nat
  fromNode : Nat
  toNode : Nat
  road : Option Nat
deriving DecidableEq, Repr

/-- A trading port, `createPort`. -/
structure Port where
  nodeIds : List Nat
  type : PortType
  ratio : Int
deriving DecidableEq, Repr

/-- Remaining building stock of a player. -/
structure BuildingsRemaining where
  settlements : Int
  cities : Int
  roads : Int
deriving DecidableEq, Repr

/-- The `settings` object of `createInitialGameState`. -/
structure Settings where
  victoryPointsToWin : Int
  enableTrading : Bool
  enablePorts : Bool
  robberDiscardLimit : Int
deriving DecidableEq, Repr

/-- A player, `createPlayer`. -/
structure Player where
  id : Nat
  resources : Resources
  settlements : List Nat
  cities : List Nat
  roads : List Nat
  developmentCards : DevCards
  developmentCardsPlayedThisTurn : List DevCardType
  knightsPlayed : Int
  victoryPoints : Int
  publicVictoryPoints : Int
  hasPlayedDevCard : Bool
  mustDiscardCards : Int
  buildingsRemaining : BuildingsRemaining
deriving DecidableEq, Repr

/-- The board record of `createInitialGameState`. -/
structure Board where
  tiles : List Tile
  nodes : List Node
  edges : List Edge
  ports : List Port
  robberPosition : Option Nat
deriving DecidableEq, Repr

/-- The authoritative game state, `createInitialGameState`. -/
structure GameState where
  phase : Phase
  turnPhase : TurnPhase
  currentPlayer : Nat
  setupRound : Int
  setupDirection : Int
  turnNumber : Int
  lastDiceRoll : Option Nat
  gameWinner : Option Nat
  board : Board
  players : List Player
  developmentCardDeck : List DevCardType
  longestRoadPlayer : Option Nat
  longestRoadLength : Int
  largestArmyPlayer : Option Nat
  largestArmySize : Int
  settings : Settings
deriving DecidableEq, Repr

/-- In-place update of one array slot, `arr[i].f = v` on a JS array. -/
def updateNth (l : List α) (i : Nat) (f : α → α) : List α :=
  match l[i]? with
  | some a => l.set i (f a)
  | none => l

/-- Functional update of player slot `i` of the state. -/
def updatePlayer (s : GameState) (i : Nat) (f : Player → Player) : GameState :=
  { s with players := updateNth s.players i f }

end Catan

namespace Catan

/-! ## Helper functions of `game-types.js` -/

/-- `calculateVictoryPoints`: buildings plus victory-point cards; the
Longest Road / Largest Army bonuses are not included here. -/
def calculateVictoryPoints (p : Player) : Int :=
  (p.settlements.length : Int) * 1 + (p.cities.length : Int) * 2
    + p.developmentCards.victoryPoint * 1

/-- `calculatePublicVictoryPoints`: buildings, minus the hidden
victory-point cards, plus the two special-achievement bonuses. -/
def calculatePublicVictoryPoints (p : Player) (s : GameState) : Int :=
  let pts := calculateVictoryPoints p - p.developmentCards.victoryPoint * 1
  let pts := if s.longestRoadPlayer = some p.id then pts + 2 else pts
  if s.largestArmyPlayer = some p.id then pts + 2 else pts

/-- The four building types priced by `BUILDING_COSTS`. -/
inductive BuildingType
  | settlementB | cityB | roadB | developmentCardB
deriving DecidableEq, Repr

/-- `BUILDING_COSTS`, entries in object-insertion order. -/
def buildingCost : BuildingType → List (Res × Int)
  | .settlementB => [(.wood, 1), (.brick, 1), (.sheep, 1), (.wheat, 1)]
  | .cityB => [(.ore, 3), (.wheat, 2)]
  | .roadB => [(.wood, 1), (.brick, 1)]
  | .developmentCardB => [(.ore, 1), (.sheep, 1), (.wheat, 1)]

/-- `canAffordBuilding`. -/
def canAffordBuilding (p : Player) (b : BuildingType) : Bool :=
  (buildingCost b).all fun rc => p.resources.get rc.1 ≥ rc.2

/-- `payForBuilding`: the new resources map after subtracting the cost. -/
def payForBuilding (p : Player) (b : BuildingType) : Resources :=
  (buildingCost b).foldl (fun acc rc => acc.add rc.1 (-rc.2)) p.resources

/-- `getTotalResources`. -/
def getTotalResources (p : Player) : Int :=
  p.resources.wood + p.resources.brick + p.resources.sheep
    + p.resources.wheat + p.resources.ore

/-- `edges.find` over both orientations of a node pair, as used by
`isConnectedToRoadNetwork` and `isConnectedToPlayerNetwork`. -/
def findEdgeBetween (edges : List Edge) (a b : Nat) : Option Edge :=
  edges.find? fun e =>
    (e.fromNode = a && e.toNode = b) || (e.fromNode = b && e.toNode = a)

/-- `isConnectedToRoadNetwork`: some incident edge carries the road of
the player. -/
def isConnectedToRoadNetwork (s : GameState) (playerId nodeId : Nat) : Bool :=
  match s.board.nodes[nodeId]? with
  | none => false
  | some node =>
    node.neighborNodes.any fun neighborId =>
      match findEdgeBetween s.board.edges nodeId neighborId with
      | some e => e.road = some playerId
      | none => false

/-- The neighbor scan of `canPlaceSettlement`, with the short-circuit
behaviour of `Array.prototype.some`: `none` when a dangling neighbor id is
reached (the callback would throw a TypeError there). -/
def someNeighborBuilt (nodes : List Node) : List Nat → Option Bool
  | [] => some false
  | i :: rest =>
    match nodes[i]? with
    | none => none
    | some n => if n.building.isSome then some true else someNeighborBuilt nodes rest

/-- `canPlaceSettlement`; `none` encodes a TypeError raised inside the
check (dangling node or player reference). -/
def canPlaceSettlement (s : GameState) (playerId nodeId : Nat) : Option Bool :=
  match s.board.nodes[nodeId]? with
  | none => none
  | some node =>
    if node.building.isSome then some false
    else
      match someNeighborBuilt s.board.nodes node.neighborNodes with
      | none => none
      | some true => some false
      | some false =>
        match s.players[playerId]? with
        | none => none
        | some player =>
          if player.buildingsRemaining.settlements ≤ 0 then some false
          else if s.phase = Phase.mainGame then
            some (isConnectedToRoadNetwork s playerId nodeId)
          else some true

/-- The `fromHasRoad` / `toHasRoad` scans of `isConnectedToPlayerNetwork`. -/
def endpointHasRoad (s : GameState) (playerId : Nat) (endpoint otherEnd : Nat)
    (node : Node) : Bool :=
  node.neighborNodes.any fun neighborId =>
    if neighborId = otherEnd then false
    else
      match findEdgeBetween s.board.edges endpoint neighborId with
      | some e => e.road = some playerId
      | none => false

/-- `isConnectedToPlayerNetwork`; `none` encodes a TypeError (dangling
edge or endpoint reference). -/
def isConnectedToPlayerNetwork (s : GameState) (playerId edgeId : Nat) :
    Option Bool :=
  match s.board.edges[edgeId]? with
  | none => none
  | some edge =>
    match s.board.nodes[edge.fromNode]?, s.board.nodes[edge.toNode]? with
    | some fromNode, some toNode =>
      let fromHasBuilding := fromNode.building.isSome && fromNode.owner = some playerId
      let toHasBuilding := toNode.building.isSome && toNode.owner = some playerId
      if fromHasBuilding || toHasBuilding then some true
      else
        some (endpointHasRoad s playerId edge.fromNode edge.toNode fromNode
          || endpointHasRoad s playerId edge.toNode edge.fromNode toNode)
    | _, _ => none

/-- `canPlaceRoad`; `none` encodes a TypeError. -/
def canPlaceRoad (s : GameState) (playerId edgeId : Nat) : Option Bool :=
  match s.board.edges[edgeId]? with
  | none => none
  | some edge =>
    if edge.road.isSome then some false
    else
      match s.players[playerId]? with
      | none => none
      | some player =>
        if player.buildingsRemaining.roads ≤ 0 then some false
        else isConnectedToPlayerNetwork s playerId edgeId

end Catan

namespace Catan

/-! ## The `CatanGameEngine` command handlers

Each handler either returns the successor state, or an error message paired
with the state at throw time (a JavaScript `throw` keeps mutations already
made on `this.gameState`). -/

/-- Result of a command handler. -/
abbrev EngineResult := Except (String × GameState) GameState

/-- A throw. -/
def fail (msg : String) (s : GameState) : EngineResult := Except.error (msg, s)

/-- The three answers of `getNextSetupAction`. -/
inductive SetupAction
  | placeSettlementA | placeRoadA | endTurnA
deriving DecidableEq, Repr

/-- `getNextSetupAction`; `none` encodes the TypeError raised when
`currentPlayer` is a dangling index. -/
def getNextSetupAction (s : GameState) : Option SetupAction :=
  match s.players[s.currentPlayer]? with
  | none => none
  | some p =>
    if (p.settlements.length : Int) < s.setupRound then some .placeSettlementA
    else if (p.roads.length : Int) < s.setupRound then some .placeRoadA
    else some .endTurnA

/-- `grantInitialResources`: one card per non-desert tile adjacent to the
just-placed settlement (dangling tile ids, which would raise a TypeError in
the source, are skipped; theorems guard them with well-formedness). -/
def grantInitialResourcesS (s : GameState) (pIdx nodeId : Nat) : GameState :=
  match s.board.nodes[nodeId]? with
  | none => s
  | some node =>
    updatePlayer s pIdx fun p =>
      { p with
        resources := node.adjacentTiles.foldl (fun acc tileId =>
          match s.board.tiles[tileId]? with
          | some t =>
            match t.resource with
            | .res r => acc.add r 1
            | .desert => acc
          | none => acc) p.resources }

/-- `updateVictoryPoints` applied to player slot `i`. -/
def updateVictoryPointsS (s : GameState) (i : Nat) : GameState :=
  updatePlayer s i fun p =>
    { p with
      victoryPoints := calculateVictoryPoints p
      publicVictoryPoints := calculatePublicVictoryPoints p s }

/-- `startMainGame`. -/
def startMainGame (s : GameState) : GameState :=
  { s with
    phase := .mainGame
    turnPhase := .diceRoll
    currentPlayer := 0
    turnNumber := 1 }

/-- `endSetupTurn`: snake-draft index bookkeeping. -/
def endSetupTurn (s : GameState) : GameState :=
  let totalPlayers := s.players.length
  if s.setupRound = 1 then
    if (s.currentPlayer : Int) < (totalPlayers : Int) - 1 then
      { s with currentPlayer := s.currentPlayer + 1 }
    else
      { s with setupRound := 2, setupDirection := -1 }
  else
    if s.currentPlayer > 0 then
      { s with currentPlayer := s.currentPlayer - 1 }
    else
      startMainGame s

/-- `placeInitialSettlement`. -/
def placeInitialSettlement (s : GameState) (nodeId : Nat) : EngineResult :=
  if s.phase ≠ Phase.setup then fail "Not in setup phase" s
  else
    match getNextSetupAction s with
    | none => fail "TypeError" s
    | some a =>
      if a ≠ .placeSettlementA then fail "Cannot place settlement now" s
      else
        match canPlaceSettlement s s.currentPlayer nodeId with
        | none => fail "TypeError" s
        | some false => fail "Cannot place settlement at this location" s
        | some true =>
          match s.players[s.currentPlayer]? with
          | none => fail "TypeError" s
          | some player =>
            let s1 := updatePlayer s s.currentPlayer fun p =>
              { p with
                settlements := p.settlements ++ [nodeId]
                buildingsRemaining :=
                  { p.buildingsRemaining with
                    settlements := p.buildingsRemaining.settlements - 1 } }
            let s2 := { s1 with
              board := { s1.board with
                nodes := updateNth s1.board.nodes nodeId fun n =>
                  { n with building := some .settlement, owner := some player.id } } }
            let s3 := if s2.setupRound = 2 then
                grantInitialResourcesS s2 s2.currentPlayer nodeId
              else s2
            Except.ok (updateVictoryPointsS s3 s3.currentPlayer)

/-- `placeInitialRoad`. -/
def placeInitialRoad (s : GameState) (edgeId : Nat) : EngineResult :=
  if s.phase ≠ Phase.setup then fail "Not in setup phase" s
  else
    match getNextSetupAction s with
    | none => fail "TypeError" s
    | some a =>
      if a ≠ .placeRoadA then fail "Cannot place road now" s
      else
        match s.players[s.currentPlayer]? with
        | none => fail "TypeError" s
        | some player =>
          match s.board.edges[edgeId]? with
          | none => fail "TypeError" s
          | some edge =>
            let lastSettlement := player.settlements.getLast?
            let connects := some edge.fromNode = lastSettlement
              ∨ some edge.toNode = lastSettlement
            if ¬connects then
              fail "Road must connect to the settlement just placed" s
            else if edge.road.isSome then fail "Edge already has a road" s
            else
              let s1 := updatePlayer s s.currentPlayer fun p =>
                { p with
                  roads := p.roads ++ [edgeId]
                  buildingsRemaining :=
                    { p.buildingsRemaining with
                      roads := p.buildingsRemaining.roads - 1 } }
              let s2 := { s1 with
                board := { s1.board with
                  edges := updateNth s1.board.edges edgeId fun e =>
                    { e with road := some player.id } } }
              if getNextSetupAction s2 = some .endTurnA then
                Except.ok (endSetupTurn s2)
              else Except.ok s2

/-- The per-tile increment of `produceResources`: one card when the tile
token equals the roll and the tile is not robber-blocked. -/
def tileGrant (tiles : List Tile) (roll : Nat) (acc : Resources)
    (tileId : Nat) : Resources :=
  match tiles[tileId]? with
  | none => acc
  | some t =>
    if t.token = some roll && !t.isBlocked then
      match t.resource with
      | .res r => acc.add r 1
      | .desert => acc
    else acc

/-- The per-building-node loop body of `produceResources`. -/
def nodeGrant (s : GameState) (roll : Nat) (acc : Resources) (nodeId : Nat) :
    Resources :=
  match s.board.nodes[nodeId]? with
  | none => acc
  | some node => node.adjacentTiles.foldl (tileGrant s.board.tiles roll) acc

/-- `produceResources`: settlements then cities, one card per matching
adjacent tile in both loops (the cities loop of the source increments once
despite its double-production comment). -/
def produceResources (s : GameState) (roll : Nat) : GameState :=
  { s with
    players := s.players.map fun p =>
      let res1 := p.settlements.foldl (nodeGrant s roll) p.resources
      let res2 := p.cities.foldl (nodeGrant s roll) res1
      { p with resources := res2 } }

/-- `handleRobberRoll`: flag players holding more than 7 cards and enter
either the discard phase or robber placement. -/
def handleRobberRoll (s : GameState) : GameState :=
  let playersNeedToDiscard :=
    (s.players.filter fun p => getTotalResources p > 7).length
  let s1 := { s with
    players := s.players.map fun p =>
      let tc := getTotalResources p
      if tc > 7 then { p with mustDiscardCards := tc / 2 } else p }
  if playersNeedToDiscard > 0 then { s1 with turnPhase := .discardCardsP }
  else { s1 with turnPhase := .robberPlacement }

/-- `rollDice`, with the two die faces as oracle parameters. -/
def rollDice (s : GameState) (d1 d2 : Nat) : EngineResult :=
  if s.phase ≠ Phase.mainGame then fail "Not in main game phase" s
  else if s.turnPhase ≠ TurnPhase.diceRoll then fail "Not dice roll phase" s
  else
    let total := d1 + d2
    let s1 := { s with lastDiceRoll := some total }
    if total = 7 then Except.ok (handleRobberRoll s1)
    else Except.ok { produceResources s1 total with turnPhase := .actions }

/-- `discardCards`; the discard request is the entry list of the JS object
argument (whose keys are distinct). -/
def discardCards (s : GameState) (playerId : Nat) (cards : List (Res × Int)) :
    EngineResult :=
  match s.players[playerId]? with
  | none => fail "TypeError" s
  | some player =>
    if player.mustDiscardCards = 0 then
      fail "Player does not need to discard" s
    else
      let totalDiscarded := (cards.map Prod.snd).sum
      if totalDiscarded ≠ player.mustDiscardCards then
        fail "Must discard exactly the required number of cards" s
      else if cards.any fun rc => player.resources.get rc.1 < rc.2 then
        fail "Not enough cards to discard" s
      else
        let s1 := updatePlayer s playerId fun p =>
          { p with
            resources := cards.foldl (fun acc rc => acc.add rc.1 (-rc.2)) p.resources
            mustDiscardCards := 0 }
        let playersStillDiscarding := s1.players.any fun p => p.mustDiscardCards > 0
        if playersStillDiscarding then Except.ok s1
        else Except.ok { s1 with turnPhase := .robberPlacement }

/-- The card multiset of a victim, in the iteration order of
`Object.entries(victim.resources)`. -/
def victimAvail (m : Resources) : List Res :=
  List.replicate m.wood.toNat .wood ++ List.replicate m.brick.toNat .brick
    ++ List.replicate m.sheep.toNat .sheep
    ++ List.replicate m.wheat.toNat .wheat
    ++ List.replicate m.ore.toNat .ore

/-- `stealRandomCard` with the random index as oracle `k`; the error case
carries the state at throw time (the victim may already have lost a card
when the stealer lookup raises a TypeError). -/
def stealRandomCardE (s : GameState) (stealerId victimId k : Nat) :
    Except GameState GameState :=
  match s.players[victimId]? with
  | none => Except.error s
  | some victim =>
    let avail := victimAvail victim.resources
    if avail.length = 0 then Except.ok s
    else
      let stolen := avail.getD (k % avail.length) .wood
      let s1 := updatePlayer s victimId fun v =>
        { v with resources := v.resources.add stolen (-1) }
      match s1.players[stealerId]? with
      | none => Except.error s1
      | some _ =>
        Except.ok (updatePlayer s1 stealerId fun p =>
          { p with resources := p.resources.add stolen 1 })

/-- `moveRobber`, with the steal oracle `k`. -/
def moveRobber (s : GameState) (tileId : Nat) (targetPlayerId : Option Nat)
    (k : Nat) : EngineResult :=
  if s.turnPhase ≠ TurnPhase.robberPlacement then
    fail "Not robber placement phase" s
  else
    match s.board.tiles[tileId]? with
    | none => fail "Invalid tile" s
    | some _ =>
      if some tileId = s.board.robberPosition then
        fail "Robber must move to a different tile" s
      else
        let s1 :=
          match s.board.robberPosition with
          | some old => { s with
              board := { s.board with
                tiles := updateNth s.board.tiles old fun t =>
                  { t with hasRobber := false, isBlocked := false } } }
          | none => s
        let s2 := { s1 with
          board := { s1.board with
            robberPosition := some tileId
            tiles := updateNth s1.board.tiles tileId fun t =>
              { t with hasRobber := true, isBlocked := true } } }
        match targetPlayerId with
        | none => Except.ok { s2 with turnPhase := .actions }
        | some victimId =>
          match stealRandomCardE s2 s2.currentPlayer victimId k with
          | Except.error sE => fail "TypeError" sE
          | Except.ok s3 => Except.ok { s3 with turnPhase := .actions }

end Catan

namespace Catan

/-! ## Victory points and the Longest Road recomputation -/

/-- `checkVictoryCondition`: update every victory-point total in order and
end the game for any player at or above the configured threshold. -/
def checkVictoryConditionS (s : GameState) : GameState :=
  (List.range s.players.length).foldl (fun acc i =>
    let acc1 := updateVictoryPointsS acc i
    match acc1.players[i]? with
    | none => acc1
    | some p =>
      if p.victoryPoints ≥ acc1.settings.victoryPointsToWin then
        { acc1 with phase := .gameOver, gameWinner := some p.id }
      else acc1) s

/-- Association-list lookup, the `Map.get` of the road-network map. -/
def netGet (net : List (Nat × List Nat)) (key : Nat) : Option (List Nat) :=
  (net.find? fun kv => kv.1 = key).map Prod.snd

/-- `Map.set`-if-absent, the `if (!roadNetwork.has(k)) set(k, [])` step. -/
def netEnsure (net : List (Nat × List Nat)) (key : Nat) : List (Nat × List Nat) :=
  if (netGet net key).isSome then net else net ++ [(key, [])]

/-- `roadNetwork.get(k).push(v)`. -/
def netPush (net : List (Nat × List Nat)) (key v : Nat) : List (Nat × List Nat) :=
  net.map fun kv => if kv.1 = key then (kv.1, kv.2 ++ [v]) else kv

/-- The road-network construction of `calculateLongestRoadForPlayer`
(dangling edge ids, a TypeError in the source, are skipped; theorems guard
them with well-formedness). -/
def buildRoadNetwork (edges : List Edge) (roads : List Nat) :
    List (Nat × List Nat) :=
  roads.foldl (fun net edgeId =>
    match edges[edgeId]? with
    | none => net
    | some edge =>
      let net1 := netEnsure net edge.fromNode
      let net2 := netEnsure net1 edge.toNode
      let net3 := netPush net2 edge.fromNode edge.toNode
      netPush net3 edge.toNode edge.fromNode) []

/-- Whether the DFS of `dfsLongestPath` refuses to step onto a node:
an opponent settlement or city stands there. -/
def blockedForB (nodes : List Node) (playerId nodeId : Nat) : Bool :=
  match nodes[nodeId]? with
  | none => false
  | some node => node.building.isSome && node.owner ≠ some playerId

/-- `dfsLongestPath`: depth-first longest path tracking visited nodes, with
explicit fuel standing for the terminating recursion of the source (the
visited set grows strictly inside the finite road network). -/
def dfsLongestPath (nodes : List Node) (net : List (Nat × List Nat))
    (playerId : Nat) : Nat → List Nat → Nat → Int
  | 0, _, _ => 0
  | fuel + 1, visited, current =>
    let visited1 := current :: visited
    let neighbors := (netGet net current).getD []
    neighbors.foldl (fun m neighbor =>
      if neighbor ∈ visited1 then m
      else if blockedForB nodes playerId neighbor then m
      else max m (1 + dfsLongestPath nodes net playerId fuel visited1 neighbor)) 0

/-- `calculateLongestRoadForPlayer`: maximum DFS length over all start
nodes of the road network of the player. -/
def calculateLongestRoadForPlayer (s : GameState) (playerId : Nat) : Int :=
  match s.players[playerId]? with
  | none => 0
  | some player =>
    if player.roads.length = 0 then 0
    else
      let net := buildRoadNetwork s.board.edges player.roads
      (net.map Prod.fst).foldl (fun m startNode =>
        max m (dfsLongestPath s.board.nodes net playerId net.length [] startNode)) 0

/-- `checkLongestRoad`: rescan every player for the best qualifying length
and, when the holder differs from the recorded one, re-award and refresh
every victory-point total. -/
def checkLongestRoadS (s : GameState) : GameState :=
  let best := s.players.foldl (fun (acc : Option Nat × Int) p =>
    let len := calculateLongestRoadForPlayer s p.id
    if len ≥ 5 ∧ len > acc.2 then (some p.id, len) else acc) (none, 0)
  if best.1 ≠ s.longestRoadPlayer then
    let s1 := { s with longestRoadPlayer := best.1, longestRoadLength := best.2 }
    (List.range s1.players.length).foldl (fun acc i => updateVictoryPointsS acc i) s1
  else s

/-! ## Building and turn commands -/

/-- `Array.prototype.splice(indexOf(x), 1)`: removes the first occurrence,
or the last element when `indexOf` answers `-1`. -/
def spliceIndexOfRemove (l : List Nat) (x : Nat) : List Nat :=
  match l.indexOf? x with
  | some i => l.eraseIdx i
  | none => l.dropLast

/-- `buildSettlement`. -/
def buildSettlement (s : GameState) (nodeId : Nat) : EngineResult :=
  if s.turnPhase ≠ TurnPhase.actions then fail "Not in actions phase" s
  else
    match s.players[s.currentPlayer]? with
    | none => fail "TypeError" s
    | some player =>
      if ¬canAffordBuilding player .settlementB then
        fail "Cannot afford settlement" s
      else
        match canPlaceSettlement s player.id nodeId with
        | none => fail "TypeError" s
        | some false => fail "Cannot place settlement at this location" s
        | some true =>
          let s1 := updatePlayer s s.currentPlayer fun p =>
            { p with
              resources := payForBuilding p .settlementB
              settlements := p.settlements ++ [nodeId]
              buildingsRemaining :=
                { p.buildingsRemaining with
                  settlements := p.buildingsRemaining.settlements - 1 } }
          let s2 := { s1 with
            board := { s1.board with
              nodes := updateNth s1.board.nodes nodeId fun n =>
                { n with building := some .settlement, owner := some player.id } } }
          let s3 := updateVictoryPointsS s2 s2.currentPlayer
          Except.ok (checkLongestRoadS s3)

/-- `buildCity`. -/
def buildCity (s : GameState) (nodeId : Nat) : EngineResult :=
  if s.turnPhase ≠ TurnPhase.actions then fail "Not in actions phase" s
  else
    match s.players[s.currentPlayer]? with
    | none => fail "TypeError" s
    | some player =>
      if ¬canAffordBuilding player .cityB then fail "Cannot afford city" s
      else
        match s.board.nodes[nodeId]? with
        | none => fail "TypeError" s
        | some node =>
          if ¬(node.building = some .settlement ∧ node.owner = some player.id) then
            fail "Must upgrade your own settlement" s
          else if player.buildingsRemaining.cities ≤ 0 then
            fail "No cities remaining" s
          else
            let s1 := updatePlayer s s.currentPlayer fun p =>
              { p with
                resources := payForBuilding p .cityB
                settlements := spliceIndexOfRemove p.settlements nodeId
                cities := p.cities ++ [nodeId]
                buildingsRemaining :=
                  { p.buildingsRemaining with
                    settlements := p.buildingsRemaining.settlements + 1
                    cities := p.buildingsRemaining.cities - 1 } }
            let s2 := { s1 with
              board := { s1.board with
                nodes := updateNth s1.board.nodes nodeId fun n =>
                  { n with building := some .city } } }
            Except.ok (updateVictoryPointsS s2 s2.currentPlayer)

/-- `buildRoad`. -/
def buildRoad (s : GameState) (edgeId : Nat) : EngineResult :=
  if s.turnPhase ≠ TurnPhase.actions then fail "Not in actions phase" s
  else
    match s.players[s.currentPlayer]? with
    | none => fail "TypeError" s
    | some player =>
      if ¬canAffordBuilding player .roadB then fail "Cannot afford road" s
      else
        match canPlaceRoad s player.id edgeId with
        | none => fail "TypeError" s
        | some false => fail "Cannot place road at this location" s
        | some true =>
          let s1 := updatePlayer s s.currentPlayer fun p =>
            { p with
              resources := payForBuilding p .roadB
              roads := p.roads ++ [edgeId]
              buildingsRemaining :=
                { p.buildingsRemaining with
                  roads := p.buildingsRemaining.roads - 1 } }
          let s2 := { s1 with
            board := { s1.board with
              edges := updateNth s1.board.edges edgeId fun e =>
                { e with road := some player.id } } }
          Except.ok (checkLongestRoadS s2)

/-- `buyDevelopmentCard` (the drawn card is `deck.pop()`, the last list
entry). -/
def buyDevelopmentCard (s : GameState) : EngineResult :=
  if s.turnPhase ≠ TurnPhase.actions then fail "Not in actions phase" s
  else
    match s.players[s.currentPlayer]? with
    | none => fail "TypeError" s
    | some player =>
      if ¬canAffordBuilding player .developmentCardB then
        fail "Cannot afford development card" s
      else if s.developmentCardDeck.length = 0 then
        fail "No development cards remaining" s
      else
        match s.developmentCardDeck.getLast? with
        | none => fail "TypeError" s
        | some cardType =>
          let s1 := { s with
            developmentCardDeck := s.developmentCardDeck.dropLast }
          let s2 := updatePlayer s1 s1.currentPlayer fun p =>
            { p with
              resources := payForBuilding p .developmentCardB
              developmentCards := p.developmentCards.add cardType 1 }
          Except.ok (updateVictoryPointsS s2 s2.currentPlayer)

/-- `endTurn`. -/
def endTurn (s : GameState) : EngineResult :=
  if s.phase ≠ Phase.mainGame then fail "Not in main game" s
  else
    match s.players[s.currentPlayer]? with
    | none => fail "TypeError" s
    | some _ =>
      let s1 := updatePlayer s s.currentPlayer fun p =>
        { p with hasPlayedDevCard := false, developmentCardsPlayedThisTurn := [] }
      let s2 := { s1 with
        currentPlayer := (s1.currentPlayer + 1) % s1.players.length
        turnNumber := s1.turnNumber + 1
        turnPhase := .diceRoll }
      Except.ok (checkVictoryConditionS s2)

end Catan

namespace Catan

/-! ## `TradingManager` (bank, port and peer-to-peer trades) -/

/-- `playerHasAccessToPort`: a settlement or city of the player on a node
listed by some port of the requested type (a dangling node id in a port
would raise a TypeError; it is read as no access and theorems guard it). -/
def playerHasAccessToPort (s : GameState) (playerId : Nat)
    (portType : PortType) : Bool :=
  s.board.ports.any fun port =>
    port.type = portType && port.nodeIds.any fun nodeId =>
      match s.board.nodes[nodeId]? with
      | some node => node.owner = some playerId && node.building.isSome
      | none => false

/-- `getPortTradeRatio` outcome: a ratio or a rejection. -/
inductive PortRatioResult
  | valid (ratio : Int)
  | invalid (msg : String)
deriving DecidableEq, Repr

/-- `getPortTradeRatio`. -/
def getPortTradeRatio (portType : PortType) (giveResources : List (Res × Int)) :
    PortRatioResult :=
  match giveResources with
  | [(giveResourceType, giveAmount)] =>
    match portType with
    | .generic =>
      if giveAmount ≠ 3 then .invalid "Generic port requires exactly 3 resources"
      else .valid 3
    | .special r =>
      if giveResourceType ≠ r then .invalid "This port only accepts its resource"
      else if giveAmount ≠ 2 then
        .invalid "Specific port requires exactly 2 resources"
      else .valid 2
  | _ => .invalid "Can only trade one resource type at a time"

/-- `tradeWithBank`. -/
def tradeWithBank (s : GameState) (playerId : Nat)
    (giveResources : List (Res × Int)) (receiveResource : Res) : EngineResult :=
  if s.currentPlayer ≠ playerId then fail "Not your turn" s
  else if s.turnPhase ≠ TurnPhase.actions then fail "Not in actions phase" s
  else
    match giveResources with
    | [(giveResourceType, giveAmount)] =>
      if giveAmount ≠ 4 then fail "Must trade exactly 4 resources to bank" s
      else
        match s.players[playerId]? with
        | none => fail "TypeError" s
        | some player =>
          if player.resources.get giveResourceType < giveAmount then
            fail "Not enough resources to trade" s
          else
            Except.ok (updatePlayer s playerId fun p =>
              { p with resources :=
                  ((p.resources.add giveResourceType (-giveAmount)).add
                    receiveResource 1) })
    | _ => fail "Can only trade one resource type at a time" s

/-- `tradeWithPort`. -/
def tradeWithPort (s : GameState) (playerId : Nat) (portType : PortType)
    (giveResources : List (Res × Int)) (receiveResource : Res) : EngineResult :=
  if s.currentPlayer ≠ playerId then fail "Not your turn" s
  else if s.turnPhase ≠ TurnPhase.actions then fail "Not in actions phase" s
  else if ¬playerHasAccessToPort s playerId portType then
    fail "Player does not have access to this port" s
  else
    match getPortTradeRatio portType giveResources with
    | .invalid msg => fail msg s
    | .valid _ =>
      match s.players[playerId]? with
      | none => fail "TypeError" s
      | some player =>
        if giveResources.any fun rc => player.resources.get rc.1 < rc.2 then
          fail "Not enough resources to trade" s
        else
          Except.ok (updatePlayer s playerId fun p =>
            { p with resources :=
                (giveResources.foldl (fun acc rc => acc.add rc.1 (-rc.2))
                  p.resources).add receiveResource 1 })

/-- A pending peer-to-peer trade offer (`activeTrades` entry). -/
structure TradeOffer where
  fromPlayerId : Nat
  toPlayerId : Nat
  offerResources : List (Res × Int)
  requestResources : List (Res × Int)
  pending : Bool
deriving DecidableEq, Repr

/-- `acceptPlayerTrade`: revalidate both sides, then transfer the offer
from the proposer to the acceptor and the request back. -/
def acceptPlayerTrade (s : GameState) (trade : TradeOffer)
    (acceptingPlayerId : Nat) : EngineResult :=
  if trade.toPlayerId ≠ acceptingPlayerId then
    fail "Only the target player can accept this trade" s
  else if ¬trade.pending then fail "Trade is no longer available" s
  else
    match s.players[trade.fromPlayerId]?, s.players[trade.toPlayerId]? with
    | some fromPlayer, some toPlayer =>
      if trade.offerResources.any fun rc =>
          fromPlayer.resources.get rc.1 < rc.2 then
        fail "Offering player no longer has enough resources" s
      else if trade.requestResources.any fun rc =>
          toPlayer.resources.get rc.1 < rc.2 then
        fail "You do not have enough resources to complete this trade" s
      else
        let s1 := trade.offerResources.foldl (fun acc rc =>
          let acc1 := updatePlayer acc trade.fromPlayerId fun p =>
            { p with resources := p.resources.add rc.1 (-rc.2) }
          updatePlayer acc1 trade.toPlayerId fun p =>
            { p with resources := p.resources.add rc.1 rc.2 }) s
        let s2 := trade.requestResources.foldl (fun acc rc =>
          let acc1 := updatePlayer acc trade.toPlayerId fun p =>
            { p with resources := p.resources.add rc.1 (-rc.2) }
          updatePlayer acc1 trade.fromPlayerId fun p =>
            { p with resources := p.resources.add rc.1 rc.2 }) s1
        Except.ok s2
    | _, _ => fail "TypeError" s

/-! ## `DevelopmentCardManager` -/

/-- `canPlayDevelopmentCard`; `none` encodes the TypeError raised when the
player index dangles after the two phase checks pass. -/
def canPlayDevelopmentCard (s : GameState) (playerId : Nat)
    (cardType : DevCardType) : Option Bool :=
  if s.currentPlayer ≠ playerId then some false
  else if s.turnPhase ≠ TurnPhase.actions then some false
  else
    match s.players[playerId]? with
    | none => none
    | some player =>
      if player.developmentCards.get cardType ≤ 0 then some false
      else if cardType ≠ .victoryPoint ∧ player.hasPlayedDevCard then some false
      else if cardType ∈ player.developmentCardsPlayedThisTurn then some false
      else some true

/-- `playMonopoly`: zero the chosen resource of every other player and
credit the sum to the acting player. -/
def playMonopoly (s : GameState) (playerId : Nat) (resourceType : Res) :
    EngineResult :=
  match canPlayDevelopmentCard s playerId .monopoly with
  | none => fail "TypeError" s
  | some false => fail "Cannot play development card" s
  | some true =>
    let totalStolen := s.players.foldl (fun acc p =>
      if p.id ≠ playerId ∧ p.resources.get resourceType > 0 then
        acc + p.resources.get resourceType
      else acc) 0
    let s1 := { s with
      players := s.players.map fun p =>
        if p.id ≠ playerId ∧ p.resources.get resourceType > 0 then
          { p with resources := p.resources.set resourceType 0 }
        else p }
    let s2 := updatePlayer s1 playerId fun p =>
      { p with
        resources := p.resources.add resourceType totalStolen
        developmentCards := p.developmentCards.add .monopoly (-1)
        hasPlayedDevCard := true }
    Except.ok s2

/-- `playYearOfPlenty`: grant the two chosen resources. -/
def playYearOfPlenty (s : GameState) (playerId : Nat) (resources : List Res) :
    EngineResult :=
  match canPlayDevelopmentCard s playerId .yearOfPlenty with
  | none => fail "TypeError" s
  | some false => fail "Cannot play development card" s
  | some true =>
    if resources.length ≠ 2 then fail "Must choose exactly 2 resources" s
    else
      let s1 := updatePlayer s playerId fun p =>
        { p with
          resources := resources.foldl (fun acc r => acc.add r 1) p.resources
          developmentCards := p.developmentCards.add .yearOfPlenty (-1)
          hasPlayedDevCard := true }
      Except.ok s1

/-! ## `EnhancedTradingSystem` port-ratio resolution -/

/-- `calculatePortAccess`: the port markers on the building nodes of the
player, in settlement-then-city order. -/
def calculatePortAccess (s : GameState) (playerId : Nat) : List PortType :=
  match s.players[playerId]? with
  | none => []
  | some player =>
    (player.settlements ++ player.cities).foldl (fun acc buildingNodeId =>
      match s.board.nodes[buildingNodeId]? with
      | some node =>
        match node.port with
        | some pt => acc ++ [pt]
        | none => acc
      | none => acc) []

/-- `getBestTradingRatio`: specialized port 2, else generic port 3, else
bank 4. -/
def getBestTradingRatio (playerPorts : List PortType) (resourceType : Res) :
    Int :=
  if (playerPorts.find? fun pt => pt = PortType.special resourceType).isSome then 2
  else if (playerPorts.find? fun pt => pt = PortType.generic).isSome then 3
  else 4

end Catan

namespace Catan

/-! ## Board generation

The generator computes hex-corner pixel positions of the exact form
`a + b * sqrt 3` with integer `a`, `b` (hex size 48, board center 300):
`axialToPixel` yields `x = 48 * sqrt 3 * (q + r / 2) + 300` whose sqrt-3
coefficient `48 q + 24 r` is an integer, and `y = 72 r + 300` which is an
integer, while the six corner offsets `48 * cos (60 i - 30)` and
`48 * sin (60 i - 30)` are `0` or `±24 * sqrt 3` horizontally and `±24`
or `±48` vertically.  Such a value is embedded as the coefficient pair and
`Math.round` is computed on it exactly. -/

/-- An exact pixel coordinate `a + b * sqrt 3`. -/
structure Zs3 where
  a : Int
  b : Int
deriving DecidableEq, Repr

def Zs3.addZ (x y : Zs3) : Zs3 := ⟨x.a + y.a, x.b + y.b⟩

/-- Newton iteration for the integer square root, with explicit fuel. -/
def isqrtIter (n : Nat) : Nat → Nat → Nat
  | 0, guess => guess
  | fuel + 1, guess =>
    let next := (guess + n / guess) / 2
    if next < guess then isqrtIter n fuel next else guess

/-- Integer square root (floor of the real square root). -/
def isqrt (n : Nat) : Nat :=
  if n ≤ 1 then n else isqrtIter n n (n / 2)

/-- `Math.round (b * sqrt 3)` for `b ≥ 0`, computed exactly:
`round t = floor (t + 1 / 2) = (floor (2 t) + 1) / 2` and
`floor (2 t) = floor (sqrt (12 b ^ 2))`; `t` is irrational for `b ≠ 0`, so
the half-way case of `Math.round` never arises. -/
def roundSqrt3Nat (b : Nat) : Nat := (isqrt (12 * b * b) + 1) / 2

/-- `Math.round (b * sqrt 3)` for any integer `b` (odd symmetry; the
half-way case never arises on an irrational argument). -/
def roundSqrt3 (b : Int) : Int :=
  if 0 ≤ b then (roundSqrt3Nat b.toNat : Int) else -(roundSqrt3Nat (-b).toNat : Int)

/-- `Math.round` of an exact coordinate. -/
def Zs3.roundZ (x : Zs3) : Int := x.a + roundSqrt3 x.b

/-- `STANDARD_HEX_LAYOUT`: the 19 axial positions in 3-4-5-4-3 rows. -/
def STANDARD_HEX_LAYOUT : List (Int × Int) :=
  [(0, -2), (1, -2), (2, -2),
   (-1, -1), (0, -1), (1, -1), (2, -1),
   (-2, 0), (-1, 0), (0, 0), (1, 0), (2, 0),
   (-2, 1), (-1, 1), (0, 1), (1, 1),
   (-2, 2), (-1, 2), (0, 2)]

/-- `STANDARD_RESOURCES`: the resource bag. -/
def STANDARD_RESOURCES : List TileKind :=
  List.replicate 4 (.res .wood) ++ List.replicate 3 (.res .brick)
    ++ List.replicate 4 (.res .sheep) ++ List.replicate 4 (.res .wheat)
    ++ List.replicate 3 (.res .ore) ++ [.desert]

/-- `TOKENS`: the 18 number tokens. -/
def TOKENS_LIST : List Nat :=
  [2, 3, 3, 4, 4, 5, 5, 6, 6, 8, 8, 9, 9, 10, 10, 11, 11, 12]

/-- `axialToPixel` (hex size 48, center 300), exactly. -/
def axialToPixel (q r : Int) : Zs3 × Zs3 :=
  (⟨300, 48 * q + 24 * r⟩, ⟨300 + 72 * r, 0⟩)

/-- The six corner offsets of `getHexCorners` (corner `i` at angle
`60 i - 30` degrees, radius 48), exactly. -/
def cornerOffsets : List (Zs3 × Zs3) :=
  [(⟨0, 24⟩, ⟨-24, 0⟩), (⟨0, 24⟩, ⟨24, 0⟩), (⟨0, 0⟩, ⟨48, 0⟩),
   (⟨0, -24⟩, ⟨24, 0⟩), (⟨0, -24⟩, ⟨-24, 0⟩), (⟨0, 0⟩, ⟨-48, 0⟩)]

/-- `getHexCorners`. -/
def getHexCorners (c : Zs3 × Zs3) : List (Zs3 × Zs3) :=
  cornerOffsets.map fun o => (c.1.addZ o.1, c.2.addZ o.2)

/-- `generateTiles`, one layout entry at a time: resource
`resources[index % resources.length]`, token `tokens.pop()` (the last
remaining token) on non-desert tiles. -/
def genTilesGo (resources : List TileKind) :
    List (Nat × Int × Int) → List Nat → List Tile
  | [], _ => []
  | (i, q, r) :: rest, toks =>
    let resource := resources.getD (i % resources.length) .desert
    if resource = .desert then
      Tile.mk i q r resource none false false :: genTilesGo resources rest toks
    else
      match toks.getLast? with
      | some t =>
        Tile.mk i q r resource (some t) false false ::
          genTilesGo resources rest toks.dropLast
      | none =>
        Tile.mk i q r resource none false false :: genTilesGo resources rest toks

/-- `generateTiles` over the shuffled resource and token bags (the shuffle
outcomes are the oracle arguments of the whole generator). -/
def generateTiles (resources : List TileKind) (tokens : List Nat) : List Tile :=
  genTilesGo resources STANDARD_HEX_LAYOUT.enum tokens

/-- A board-generation node: a game node plus its exact pixel position. -/
structure BNode where
  id : Nat
  x : Zs3
  y : Zs3
  adjacentTiles : List Nat
  neighborNodes : List Nat
  building : Option Building
  owner : Option Nat
  port : Option PortType
deriving DecidableEq, Repr

/-- The rounded-pixel map key of a corner. -/
def nodeKey (c : Zs3 × Zs3) : Int × Int := (c.1.roundZ, c.2.roundZ)

/-- One corner visit of the node-deduplication pass: first occurrence of a
key creates a node, later occurrences append the tile id. -/
def insertCorner (tileId : Nat) (st : List ((Int × Int) × Nat) × List BNode)
    (c : Zs3 × Zs3) : List ((Int × Int) × Nat) × List BNode :=
  let key := nodeKey c
  match (st.1.find? fun kv => kv.1 = key).map Prod.snd with
  | none =>
    let id := st.2.length
    (st.1 ++ [(key, id)],
      st.2 ++ [⟨id, c.1, c.2, [tileId], [], none, none, none⟩])
  | some nid =>
    (st.1, updateNth st.2 nid fun n =>
      { n with adjacentTiles := n.adjacentTiles ++ [tileId] })

/-- The consecutive corner pairs of one hex (`i` to `(i + 1) % 6`). -/
def hexEdgePairs (ids : List Nat) : List (Nat × Nat) :=
  (List.range 6).map fun i => (ids.getD i 0, ids.getD ((i + 1) % 6) 0)

/-- One candidate edge of the edge pass: canonicalize the node pair,
skip it when already seen, otherwise append the edge and link neighbors. -/
def addEdgeStep (st : List BNode × List Edge × List (Nat × Nat))
    (ab : Nat × Nat) : List BNode × List Edge × List (Nat × Nat) :=
  let key := if ab.1 < ab.2 then (ab.1, ab.2) else (ab.2, ab.1)
  if key ∈ st.2.2 then st
  else
    let edges := st.2.1 ++ [Edge.mk st.2.1.length ab.1 ab.2 none]
    let nodes := updateNth st.1 ab.1 fun n =>
      { n with neighborNodes := n.neighborNodes ++ [ab.2] }
    let nodes := updateNth nodes ab.2 fun n =>
      { n with neighborNodes := n.neighborNodes ++ [ab.1] }
    (nodes, edges, st.2.2 ++ [key])

/-- `generateNodesAndEdges` on the `(id, q, r)` projections of the tiles
(the only tile fields the source function reads). -/
def genNodesEdgesCore (ts : List (Nat × Int × Int)) : List BNode × List Edge :=
  let start := ts.foldl (fun st t =>
    (getHexCorners (axialToPixel t.2.1 t.2.2)).foldl (insertCorner t.1) st)
    ([], [])
  let final := ts.foldl (fun st t =>
    let corners := getHexCorners (axialToPixel t.2.1 t.2.2)
    let nodeIds := corners.map fun c =>
      ((start.1.find? fun kv => kv.1 = nodeKey c).map Prod.snd).getD 0
    (hexEdgePairs nodeIds).foldl addEdgeStep st) (start.2, [], [])
  (final.1, final.2.1)

/-- `generateNodesAndEdges`. -/
def generateNodesAndEdges (tiles : List Tile) : List BNode × List Edge :=
  genNodesEdgesCore (tiles.map fun t => (t.id, t.q, t.r))

/-- `STANDARD_PORTS` of the board-generation module. -/
def STANDARD_PORTS : List (List Nat × PortType) :=
  [([0, 1], .generic), ([3, 4], .generic), ([15, 22], .generic),
   ([46, 47], .generic),
   ([7, 17], .special .wood), ([14, 23], .special .brick),
   ([28, 38], .special .sheep), ([45, 51], .special .wheat),
   ([26, 37], .special .ore)]

/-- `generatePorts`: build the port list and mark the referenced nodes. -/
def generatePorts (nodes : List BNode) : List Port × List BNode :=
  STANDARD_PORTS.foldl (fun acc pc =>
    let ratio : Int := if pc.2 = PortType.generic then 3 else 2
    let marked := pc.1.foldl (fun ns nid =>
      updateNth ns nid fun n => { n with port := some pc.2 }) acc.2
    (acc.1 ++ [⟨pc.1, pc.2, ratio⟩], marked)) ([], nodes)

/-- The record returned by `generateRandomBoard`. -/
structure GeneratedBoard where
  tiles : List Tile
  nodes : List BNode
  edges : List Edge
  ports : List Port
  robberPosition : Nat
deriving DecidableEq, Repr

/-- `generateRandomBoard`, over the two shuffle outcomes. -/
def generateRandomBoard (resources : List TileKind) (tokens : List Nat) :
    GeneratedBoard :=
  let tiles := generateTiles resources tokens
  let ne := generateNodesAndEdges tiles
  let pn := generatePorts ne.1
  { tiles := tiles
    nodes := pn.2
    edges := ne.2
    ports := pn.1
    robberPosition :=
      ((tiles.find? fun t => t.resource = .desert).map Tile.id).getD 0 }

end Catan

namespace Catan

/-! ## Generic facts about slot updates -/

theorem updateNth_length (l : List α) (i : Nat) (f : α → α) :
    (updateNth l i f).length = l.length := by
  unfold updateNth
  cases h : l[i]? with
  | none => rfl
  | some a => simp [List.length_set]

theorem getElem?_updateNth_ne (l : List α) (f : α → α) {i j : Nat} (h : i ≠ j) :
    (updateNth l i f)[j]? = l[j]? := by
  unfold updateNth
  cases hl : l[i]? with
  | none => rfl
  | some a => simp [List.getElem?_set_ne h]

theorem getElem?_updateNth_self (l : List α) (i : Nat) (f : α → α) :
    (updateNth l i f)[i]? = (l[i]?).map f := by
  unfold updateNth
  cases hl : l[i]? with
  | none => simp [hl]
  | some a =>
    have hi : i < l.length := by
      have := List.getElem?_eq_some_iff.mp hl
      exact this.1
    simp [List.getElem?_set_self (by simpa using hi), hl]

end Catan

namespace Catan

/-! ## Claim C10: the frame of `buildCity` -/

/-- C10. A successful `buildCity nodeId` changes only the targeted node
(settlement upgraded to city, owner and every other field unchanged) and
the acting player (resources, settlement and city lists, remaining
building counters, victory points); every tile, every edge, every other
node, every other player and every scalar field of the state are left
unchanged. -/
theorem claim_C10_buildCity_frame (s : GameState) (nodeId : Nat)
    (s' : GameState) (h : buildCity s nodeId = Except.ok s') :
    s'.board.tiles = s.board.tiles ∧
    s'.board.edges = s.board.edges ∧
    s'.board.ports = s.board.ports ∧
    s'.board.robberPosition = s.board.robberPosition ∧
    (∀ j, j ≠ nodeId → s'.board.nodes[j]? = s.board.nodes[j]?) ∧
    (∀ n, s.board.nodes[nodeId]? = some n →
      n.building = some Building.settlement ∧
      s'.board.nodes[nodeId]? = some { n with building := some Building.city }) ∧
    (∀ j, j ≠ s.currentPlayer → s'.players[j]? = s.players[j]?) ∧
    (∀ p, s.players[s.currentPlayer]? = some p →
      ∀ p', s'.players[s.currentPlayer]? = some p' →
        p'.id = p.id ∧ p'.roads = p.roads ∧
        p'.developmentCards = p.developmentCards ∧
        p'.developmentCardsPlayedThisTurn = p.developmentCardsPlayedThisTurn ∧
        p'.knightsPlayed = p.knightsPlayed ∧
        p'.hasPlayedDevCard = p.hasPlayedDevCard ∧
        p'.mustDiscardCards = p.mustDiscardCards) ∧
    s'.phase = s.phase ∧ s'.turnPhase = s.turnPhase ∧
    s'.currentPlayer = s.currentPlayer ∧ s'.setupRound = s.setupRound ∧
    s'.setupDirection = s.setupDirection ∧ s'.turnNumber = s.turnNumber ∧
    s'.lastDiceRoll = s.lastDiceRoll ∧ s'.gameWinner = s.gameWinner ∧
    s'.developmentCardDeck = s.developmentCardDeck ∧
    s'.longestRoadPlayer = s.longestRoadPlayer ∧
    s'.longestRoadLength = s.longestRoadLength ∧
    s'.largestArmyPlayer = s.largestArmyPlayer ∧
    s'.largestArmySize = s.largestArmySize ∧
    s'.settings = s.settings := by
  unfold buildCity at h
  split at h
  · exact absurd h (by simp [fail])
  · split at h
    · exact absurd h (by simp [fail])
    · rename_i player hplayer
      split at h
      · exact absurd h (by simp [fail])
      · split at h
        · exact absurd h (by simp [fail])
        · rename_i node hnode
          split at h
          · exact absurd h (by simp [fail])
          · split at h
            · exact absurd h (by simp [fail])
            · rename_i hguard _
              rw [not_not] at hguard
              injection h with h
              subst h
              refine ⟨rfl, rfl, rfl, rfl, ?_, ?_, ?_, ?_, rfl, rfl, rfl, rfl,
                rfl, rfl, rfl, rfl, rfl, rfl, rfl, rfl, rfl, rfl⟩
              · intro j hj
                exact getElem?_updateNth_ne _ _ (fun e => hj e.symm)
              · intro n hn
                show _ ∧ (updateNth s.board.nodes nodeId _)[nodeId]? = _
                rw [hnode] at hn
                injection hn with hn
                subst hn
                refine ⟨hguard.1, ?_⟩
                rw [getElem?_updateNth_self, hnode]
                rfl
              · intro j hj
                show (updateNth (updateNth s.players s.currentPlayer _) s.currentPlayer _)[j]? = _
                rw [getElem?_updateNth_ne _ _ (fun e => hj e.symm),
                  getElem?_updateNth_ne _ _ (fun e => hj e.symm)]
              · intro p hp p' hp'
                simp only [updateVictoryPointsS, updatePlayer, getElem?_updateNth_self, hp,
                  Option.map_some'] at hp'
                injection hp' with hp'
                subst hp'
                exact ⟨rfl, rfl, rfl, rfl, rfl, rfl, rfl⟩

end Catan

namespace Catan

/-! ## Small concrete states for witnesses and counterexamples -/

/-- A fresh player, `createPlayer`. -/
def mkPlayer (i : Nat) : Player :=
  { id := i
    resources := Resources.zero
    settlements := []
    cities := []
    roads := []
    developmentCards := ⟨0, 0, 0, 0, 0⟩
    developmentCardsPlayedThisTurn := []
    knightsPlayed := 0
    victoryPoints := 0
    publicVictoryPoints := 0
    hasPlayedDevCard := false
    mustDiscardCards := 0
    buildingsRemaining := ⟨5, 4, 15⟩ }

/-- The default settings of `createInitialGameState`. -/
def defaultSettings : Settings := ⟨10, true, true, 7⟩

/-- An empty board. -/
def emptyBoard : Board := ⟨[], [], [], [], none⟩

/-- A two-player main-game state in the actions phase with an empty board. -/
def baseState : GameState :=
  { phase := .mainGame
    turnPhase := .actions
    currentPlayer := 0
    setupRound := 1
    setupDirection := 1
    turnNumber := 1
    lastDiceRoll := none
    gameWinner := none
    board := emptyBoard
    players := [mkPlayer 0, mkPlayer 1]
    developmentCardDeck := []
    longestRoadPlayer := none
    longestRoadLength := 0
    largestArmyPlayer := none
    largestArmySize := 0
    settings := defaultSettings }

/-- Witness state for C10: a settlement of player 0 on node 0 and the
city price in hand. -/
def w10 : GameState :=
  { baseState with
    board := { emptyBoard with
      nodes := [⟨0, [], [], some .settlement, some 0, none⟩] }
    players := [{ mkPlayer 0 with
      resources := ⟨0, 0, 0, 2, 3⟩
      settlements := [0] }, mkPlayer 1] }

/-- The state after the witness `buildCity` call. -/
def w10after : GameState := ((buildCity w10 0).toOption).getD w10

theorem claim_C10_witness :
    buildCity w10 0 = Except.ok w10after ∧ w10after.board.edges = w10.board.edges :=
  ⟨by rfl, (claim_C10_buildCity_frame w10 0 w10after (by rfl)).2.1⟩

end Catan

namespace Catan

/-! ## Claim C8: port-ratio resolution -/

/-- The port marker visible through a node id. -/
def portAt (s : GameState) (nid : Nat) : Option PortType :=
  match s.board.nodes[nid]? with
  | some node => node.port
  | none => none

theorem portAccess_foldl (s : GameState) (l : List Nat) (acc : List PortType) :
    l.foldl (fun acc buildingNodeId =>
      match s.board.nodes[buildingNodeId]? with
      | some node =>
        match node.port with
        | some pt => acc ++ [pt]
        | none => acc
      | none => acc) acc
      = acc ++ l.filterMap (portAt s) := by
  induction l generalizing acc with
  | nil => simp
  | cons x xs ih =>
    simp only [List.foldl_cons, List.filterMap_cons, portAt]
    cases hx : s.board.nodes[x]? with
    | none => simp only []; rw [ih]
    | some node =>
      cases hp : node.port with
      | none => simp only [hp]; rw [ih]
      | some pt => simp only [hp]; rw [ih]; simp

theorem calculatePortAccess_eq (s : GameState) (pid : Nat) (p : Player)
    (hp : s.players[pid]? = some p) :
    calculatePortAccess s pid = (p.settlements ++ p.cities).filterMap (portAt s) := by
  unfold calculatePortAccess
  rw [hp]
  exact portAccess_foldl s _ []

/-- C8. The resolved give-ratio of a player for a resource is 2 when some
settlement or city of the player stands on a node flagged with the
matching specialized port, else 3 when one stands on a node flagged with
a generic port, else the bank ratio 4. -/
theorem claim_C8_port_ratio (s : GameState) (pid : Nat) (r : Res) (p : Player)
    (hp : s.players[pid]? = some p) :
    (getBestTradingRatio (calculatePortAccess s pid) r = 2 ↔
      (∃ nid ∈ p.settlements ++ p.cities, ∃ node,
        s.board.nodes[nid]? = some node ∧ node.port = some (PortType.special r))) ∧
    (getBestTradingRatio (calculatePortAccess s pid) r = 3 ↔
      (¬∃ nid ∈ p.settlements ++ p.cities, ∃ node,
        s.board.nodes[nid]? = some node ∧ node.port = some (PortType.special r)) ∧
      (∃ nid ∈ p.settlements ++ p.cities, ∃ node,
        s.board.nodes[nid]? = some node ∧ node.port = some PortType.generic)) ∧
    (getBestTradingRatio (calculatePortAccess s pid) r = 4 ↔
      (¬∃ nid ∈ p.settlements ++ p.cities, ∃ node,
        s.board.nodes[nid]? = some node ∧ node.port = some (PortType.special r)) ∧
      ¬∃ nid ∈ p.settlements ++ p.cities, ∃ node,
        s.board.nodes[nid]? = some node ∧ node.port = some PortType.generic) := by
  have hmem : ∀ pt : PortType, (pt ∈ calculatePortAccess s pid) ↔
      ∃ nid ∈ p.settlements ++ p.cities, ∃ node,
        s.board.nodes[nid]? = some node ∧ node.port = some pt := by
    intro pt
    rw [calculatePortAccess_eq s pid p hp, List.mem_filterMap]
    constructor
    · rintro ⟨nid, hnid, hpt⟩
      refine ⟨nid, hnid, ?_⟩
      unfold portAt at hpt
      cases hx : s.board.nodes[nid]? with
      | none => rw [hx] at hpt; cases hpt
      | some node => rw [hx] at hpt; exact ⟨node, rfl, hpt⟩
    · rintro ⟨nid, hnid, node, hnode, hpt⟩
      exact ⟨nid, hnid, by unfold portAt; rw [hnode]; exact hpt⟩
  unfold getBestTradingRatio
  have hs_iff : (((calculatePortAccess s pid).find? fun pt =>
      pt = PortType.special r).isSome = true) ↔
      PortType.special r ∈ calculatePortAccess s pid := by
    simp [List.find?_isSome]
  have hg_iff : (((calculatePortAccess s pid).find? fun pt =>
      pt = PortType.generic).isSome = true) ↔
      PortType.generic ∈ calculatePortAccess s pid := by
    simp [List.find?_isSome]
  by_cases hs : PortType.special r ∈ calculatePortAccess s pid
  · rw [if_pos (hs_iff.mpr hs)]
    have es := (hmem (PortType.special r)).mp hs
    exact ⟨⟨fun _ => es, fun _ => rfl⟩,
      ⟨fun h => absurd h (by decide), fun h => absurd es h.1⟩,
      ⟨fun h => absurd h (by decide), fun h => absurd es h.1⟩⟩
  · rw [if_neg (fun h => hs (hs_iff.mp h))]
    have nes : ¬∃ nid ∈ p.settlements ++ p.cities, ∃ node,
        s.board.nodes[nid]? = some node ∧ node.port = some (PortType.special r) :=
      fun h => hs ((hmem _).mpr h)
    by_cases hg : PortType.generic ∈ calculatePortAccess s pid
    · rw [if_pos (hg_iff.mpr hg)]
      have eg := (hmem PortType.generic).mp hg
      exact ⟨⟨fun h => absurd h (by decide), fun h => absurd h nes⟩,
        ⟨fun _ => ⟨nes, eg⟩, fun _ => rfl⟩,
        ⟨fun h => absurd h (by decide), fun h => absurd eg h.2⟩⟩
    · rw [if_neg (fun h => hg (hg_iff.mp h))]
      have neg : ¬∃ nid ∈ p.settlements ++ p.cities, ∃ node,
          s.board.nodes[nid]? = some node ∧ node.port = some PortType.generic :=
        fun h => hg ((hmem _).mpr h)
      exact ⟨⟨fun h => absurd h (by decide), fun h => absurd h nes⟩,
        ⟨fun h => absurd h (by decide), fun h => absurd h.2 neg⟩,
        ⟨fun _ => ⟨nes, neg⟩, fun _ => rfl⟩⟩

end Catan

namespace Catan

/-- Witness node for C8: a settlement of player 0 on a wood-port node. -/
def w8node : Node := ⟨0, [], [], some .settlement, some 0, some (.special .wood)⟩

/-- Witness player for C8. -/
def w8p : Player := { mkPlayer 0 with settlements := [0] }

/-- Witness state for C8. -/
def w8 : GameState :=
  { baseState with
    board := { emptyBoard with nodes := [w8node] }
    players := [w8p, mkPlayer 1] }

theorem claim_C8_witness :
    getBestTradingRatio (calculatePortAccess w8 0) Res.wood = 2 ∧
    getBestTradingRatio (calculatePortAccess w8 0) Res.brick = 4 := by
  constructor
  · exact (claim_C8_port_ratio w8 0 Res.wood w8p rfl).1.mpr
      ⟨0, by decide, w8node, rfl, rfl⟩
  · refine (claim_C8_port_ratio w8 0 Res.brick w8p rfl).2.2.mpr ⟨?_, ?_⟩
    · rintro ⟨nid, hnid, node, hnode, hport⟩
      have : nid = 0 := by
        simpa [w8p, mkPlayer] using hnid
      subst this
      rw [show w8.board.nodes[0]? = some w8node from rfl] at hnode
      injection hnode with hnode
      subst hnode
      exact absurd hport (by decide)
    · rintro ⟨nid, hnid, node, hnode, hport⟩
      have : nid = 0 := by
        simpa [w8p, mkPlayer] using hnid
      subst this
      rw [show w8.board.nodes[0]? = some w8node from rfl] at hnode
      injection hnode with hnode
      subst hnode
      exact absurd hport (by decide)

end Catan

namespace Catan

/-! ## Structure of the victory-point recomputation -/

theorem updatePlayer_get_ne (s : GameState) (i j : Nat) (f : Player → Player)
    (h : j ≠ i) : (updatePlayer s i f).players[j]? = s.players[j]? :=
  getElem?_updateNth_ne _ _ (fun e => h e.symm)

theorem updatePlayer_get_self (s : GameState) (i : Nat) (f : Player → Player) :
    (updatePlayer s i f).players[i]? = (s.players[i]?).map f :=
  getElem?_updateNth_self _ _ _

/-- The per-player update performed by `updateVictoryPoints`. -/
def updVP (acc : GameState) (p : Player) : Player :=
  { p with
    victoryPoints := calculateVictoryPoints p
    publicVictoryPoints := calculatePublicVictoryPoints p acc }

theorem updateVictoryPointsS_eq (s : GameState) (i : Nat) :
    updateVictoryPointsS s i = updatePlayer s i (updVP s) := rfl

theorem calcVP_updVP (acc : GameState) (p : Player) :
    calculateVictoryPoints (updVP acc p) = calculateVictoryPoints p := rfl

theorem calcPublic_congr (p : Player) (s t : GameState)
    (h1 : t.longestRoadPlayer = s.longestRoadPlayer)
    (h2 : t.largestArmyPlayer = s.largestArmyPlayer) :
    calculatePublicVictoryPoints p t = calculatePublicVictoryPoints p s := by
  unfold calculatePublicVictoryPoints
  rw [h1, h2]

theorem calcPublic_updVP (acc t : GameState) (p : Player) :
    calculatePublicVictoryPoints (updVP acc p) t = calculatePublicVictoryPoints p t := rfl

/-- One step of the `checkVictoryCondition` player loop. -/
def vcStep (acc : GameState) (i : Nat) : GameState :=
  let acc1 := updateVictoryPointsS acc i
  match acc1.players[i]? with
  | none => acc1
  | some p =>
    if p.victoryPoints ≥ acc1.settings.victoryPointsToWin then
      { acc1 with phase := .gameOver, gameWinner := some p.id }
    else acc1

theorem checkVictoryConditionS_eq (s : GameState) :
    checkVictoryConditionS s = (List.range s.players.length).foldl vcStep s := rfl

/-- Explicit shape of one victory-check step. -/
theorem vcStep_eq (acc : GameState) (i : Nat) :
    vcStep acc i =
      match acc.players[i]? with
      | none => updateVictoryPointsS acc i
      | some p =>
        if acc.settings.victoryPointsToWin ≤ calculateVictoryPoints p then
          { updateVictoryPointsS acc i with
            phase := .gameOver, gameWinner := some p.id }
        else updateVictoryPointsS acc i := by
  unfold vcStep
  simp only [updateVictoryPointsS_eq, updatePlayer_get_self]
  cases hp : acc.players[i]? with
  | none => rfl
  | some p => rfl

end Catan

namespace Catan

theorem vcStep_players_ne (acc : GameState) (i j : Nat) (h : j ≠ i) :
    (vcStep acc i).players[j]? = acc.players[j]? := by
  rw [vcStep_eq]
  cases hp : acc.players[i]? with
  | none => exact updatePlayer_get_ne _ _ _ _ h
  | some p =>
    by_cases hth : acc.settings.victoryPointsToWin ≤ calculateVictoryPoints p
    · simp only [if_pos hth]
      exact updatePlayer_get_ne _ _ _ _ h
    · simp only [if_neg hth]
      exact updatePlayer_get_ne _ _ _ _ h

theorem vcStep_players_self (acc : GameState) (i : Nat) :
    (vcStep acc i).players[i]? = (acc.players[i]?).map (updVP acc) := by
  rw [vcStep_eq]
  cases hp : acc.players[i]? with
  | none => rw [updateVictoryPointsS_eq, updatePlayer_get_self, hp]
  | some p =>
    by_cases hth : acc.settings.victoryPointsToWin ≤ calculateVictoryPoints p
    · simp only [if_pos hth]
      show (updateVictoryPointsS acc i).players[i]? = _
      rw [updateVictoryPointsS_eq, updatePlayer_get_self, hp]
    · simp only [if_neg hth]
      rw [updateVictoryPointsS_eq, updatePlayer_get_self, hp]

theorem vcStep_frame (acc : GameState) (i : Nat) :
    (vcStep acc i).settings = acc.settings ∧
    (vcStep acc i).players.length = acc.players.length ∧
    (vcStep acc i).longestRoadPlayer = acc.longestRoadPlayer ∧
    (vcStep acc i).largestArmyPlayer = acc.largestArmyPlayer ∧
    (vcStep acc i).board = acc.board ∧
    (vcStep acc i).currentPlayer = acc.currentPlayer ∧
    (vcStep acc i).turnPhase = acc.turnPhase ∧
    (vcStep acc i).turnNumber = acc.turnNumber := by
  rw [vcStep_eq]
  cases hp : acc.players[i]? with
  | none =>
    exact ⟨rfl, updateNth_length _ _ _, rfl, rfl, rfl, rfl, rfl, rfl⟩
  | some p =>
    by_cases hth : acc.settings.victoryPointsToWin ≤ calculateVictoryPoints p
    · simp only [if_pos hth]
      exact ⟨rfl, updateNth_length _ _ _, rfl, rfl, rfl, rfl, rfl, rfl⟩
    · simp only [if_neg hth]
      exact ⟨rfl, updateNth_length _ _ _, rfl, rfl, rfl, rfl, rfl, rfl⟩

theorem vcStep_phase (acc : GameState) (i : Nat) :
    (vcStep acc i).phase = Phase.gameOver ↔
      (acc.phase = Phase.gameOver ∨ ∃ p, acc.players[i]? = some p ∧
        acc.settings.victoryPointsToWin ≤ calculateVictoryPoints p) := by
  rw [vcStep_eq]
  cases hp : acc.players[i]? with
  | none =>
    simp only [reduceCtorEq, false_and, exists_false, or_false]
    exact Iff.rfl
  | some p =>
    by_cases hth : acc.settings.victoryPointsToWin ≤ calculateVictoryPoints p
    · simp [if_pos hth, hth]
    · simp only [if_neg hth, Option.some.injEq]
      constructor
      · intro hph
        exact Or.inl hph
      · rintro (hph | ⟨p', hpe, hthp⟩)
        · exact hph
        · subst hpe
          exact absurd hthp hth

theorem vcStep_no_trigger (acc : GameState) (i : Nat)
    (h : ¬∃ p, acc.players[i]? = some p ∧
      acc.settings.victoryPointsToWin ≤ calculateVictoryPoints p) :
    (vcStep acc i).phase = acc.phase ∧
    (vcStep acc i).gameWinner = acc.gameWinner := by
  rw [vcStep_eq]
  cases hp : acc.players[i]? with
  | none => exact ⟨rfl, rfl⟩
  | some p =>
    have hth : ¬acc.settings.victoryPointsToWin ≤ calculateVictoryPoints p :=
      fun hth => h ⟨p, hp, hth⟩
    simp only [if_neg hth]
    exact ⟨rfl, rfl⟩

theorem vcStep_trigger (acc : GameState) (i : Nat) (p : Player)
    (hp : acc.players[i]? = some p)
    (hth : acc.settings.victoryPointsToWin ≤ calculateVictoryPoints p) :
    (vcStep acc i).phase = Phase.gameOver ∧
    (vcStep acc i).gameWinner = some p.id := by
  rw [vcStep_eq, hp]
  simp only [if_pos hth]
  exact ⟨trivial, trivial⟩

end Catan

namespace Catan

/-! ## The victory-check fold over all players -/

theorem vcFold_settings (idxs : List Nat) (acc : GameState) :
    (idxs.foldl vcStep acc).settings = acc.settings := by
  induction idxs generalizing acc with
  | nil => rfl
  | cons i rest ih => rw [List.foldl_cons, ih, (vcStep_frame acc i).1]

theorem vcFold_players_ne (idxs : List Nat) (acc : GameState) (j : Nat)
    (h : j ∉ idxs) : (idxs.foldl vcStep acc).players[j]? = acc.players[j]? := by
  induction idxs generalizing acc with
  | nil => rfl
  | cons i rest ih =>
    rw [List.foldl_cons, ih _ (fun hr => h (List.mem_cons_of_mem _ hr)),
      vcStep_players_ne _ _ _ (fun e => h (by rw [e]; exact List.mem_cons_self i rest))]

theorem vcFold_calcOf (idxs : List Nat) (acc : GameState) (j : Nat) :
    ((idxs.foldl vcStep acc).players[j]?).map calculateVictoryPoints
      = (acc.players[j]?).map calculateVictoryPoints := by
  induction idxs generalizing acc with
  | nil => rfl
  | cons i rest ih =>
    rw [List.foldl_cons, ih]
    by_cases hj : j = i
    · subst hj
      rw [vcStep_players_self]
      cases acc.players[j]? with
      | none => rfl
      | some p => rfl
    · rw [vcStep_players_ne _ _ _ hj]

theorem vcStep_totalGood (acc : GameState) (i j : Nat)
    (h : j = i ∨ ∀ p, acc.players[j]? = some p →
      p.victoryPoints = calculateVictoryPoints p) :
    ∀ p, (vcStep acc i).players[j]? = some p →
      p.victoryPoints = calculateVictoryPoints p := by
  intro p hp
  by_cases hj : j = i
  · subst hj
    rw [vcStep_players_self] at hp
    cases hq : acc.players[j]? with
    | none => rw [hq] at hp; cases hp
    | some q =>
      rw [hq] at hp
      injection hp with hp
      subst hp
      rfl
  · rw [vcStep_players_ne _ _ _ hj] at hp
    exact (h.resolve_left hj) p hp

theorem vcFold_totalGood (idxs : List Nat) (acc : GameState) (j : Nat)
    (h : j ∈ idxs ∨ ∀ p, acc.players[j]? = some p →
      p.victoryPoints = calculateVictoryPoints p) :
    ∀ p, (idxs.foldl vcStep acc).players[j]? = some p →
      p.victoryPoints = calculateVictoryPoints p := by
  induction idxs generalizing acc with
  | nil =>
    intro p hp
    exact (h.resolve_left (List.not_mem_nil j)) p hp
  | cons i rest ih =>
    rw [List.foldl_cons]
    refine ih (vcStep acc i) ?_
    by_cases hj : j ∈ rest
    · exact Or.inl hj
    · refine Or.inr (vcStep_totalGood acc i j ?_)
      rcases h with hmem | hgood
      · rcases List.mem_cons.mp hmem with he | hr
        · exact Or.inl he
        · exact absurd hr hj
      · exact Or.inr hgood

theorem vcFold_phase (idxs : List Nat) (acc : GameState) :
    (idxs.foldl vcStep acc).phase = Phase.gameOver ↔
      (acc.phase = Phase.gameOver ∨ ∃ i ∈ idxs, ∃ p, acc.players[i]? = some p ∧
        acc.settings.victoryPointsToWin ≤ calculateVictoryPoints p) := by
  induction idxs generalizing acc with
  | nil => simp
  | cons i rest ih =>
    rw [List.foldl_cons, ih]
    constructor
    · rintro (hph | ⟨j, hj, p, hp, hth⟩)
      · rcases (vcStep_phase acc i).mp hph with hph' | ⟨p, hp, hth⟩
        · exact Or.inl hph'
        · exact Or.inr ⟨i, List.mem_cons_self i rest, p, hp,
            by simpa using hth⟩
      · by_cases hji : j = i
        · subst hji
          rw [vcStep_players_self] at hp
          cases hq : acc.players[j]? with
          | none => rw [hq] at hp; cases hp
          | some q =>
            rw [hq] at hp
            injection hp with hp
            subst hp
            refine Or.inr ⟨j, List.mem_cons_self j rest, q, hq, ?_⟩
            rw [calcVP_updVP] at hth
            simpa [(vcStep_frame acc j).1] using hth
        · rw [vcStep_players_ne _ _ _ hji] at hp
          exact Or.inr ⟨j, List.mem_cons_of_mem _ hj, p, hp,
            by simpa [(vcStep_frame acc i).1] using hth⟩
    · rintro (hph | ⟨j, hj, p, hp, hth⟩)
      · refine Or.inl ((vcStep_phase acc i).mpr (Or.inl hph))
      · rcases List.mem_cons.mp hj with hji | hjr
        · subst hji
          exact Or.inl ((vcStep_phase acc j).mpr (Or.inr ⟨p, hp, hth⟩))
        · by_cases hji : j = i
          · subst hji
            exact Or.inl ((vcStep_phase acc j).mpr (Or.inr ⟨p, hp, hth⟩))
          · refine Or.inr ⟨j, hjr, p, ?_, ?_⟩
            · rw [vcStep_players_ne _ _ _ hji]
              exact hp
            · simpa [(vcStep_frame acc i).1] using hth

end Catan

namespace Catan

theorem vcFold_length (idxs : List Nat) (acc : GameState) :
    (idxs.foldl vcStep acc).players.length = acc.players.length := by
  induction idxs generalizing acc with
  | nil => rfl
  | cons i rest ih => rw [List.foldl_cons, ih, (vcStep_frame acc i).2.1]

theorem vcFold_idOf (idxs : List Nat) (acc : GameState) (j : Nat) :
    ((idxs.foldl vcStep acc).players[j]?).map Player.id
      = (acc.players[j]?).map Player.id := by
  induction idxs generalizing acc with
  | nil => rfl
  | cons i rest ih =>
    rw [List.foldl_cons, ih]
    by_cases hj : j = i
    · subst hj
      rw [vcStep_players_self]
      cases acc.players[j]? with
      | none => rfl
      | some p => rfl
    · rw [vcStep_players_ne _ _ _ hj]

theorem vcStep_phase_or (acc : GameState) (i : Nat) :
    (vcStep acc i).phase = acc.phase ∨ (vcStep acc i).phase = Phase.gameOver := by
  rw [vcStep_eq]
  cases hp : acc.players[i]? with
  | none => exact Or.inl rfl
  | some p =>
    by_cases hth : acc.settings.victoryPointsToWin ≤ calculateVictoryPoints p
    · simp only [if_pos hth]
      exact Or.inr trivial
    · simp only [if_neg hth]
      exact Or.inl rfl

theorem vcFold_phase_or (idxs : List Nat) (acc : GameState) :
    (idxs.foldl vcStep acc).phase = acc.phase ∨
      (idxs.foldl vcStep acc).phase = Phase.gameOver := by
  induction idxs generalizing acc with
  | nil => exact Or.inl rfl
  | cons i rest ih =>
    rw [List.foldl_cons]
    rcases ih (vcStep acc i) with hph | hph
    · rcases vcStep_phase_or acc i with hs | hs
      · exact Or.inl (hph.trans hs)
      · exact Or.inr (hph.trans hs)
    · exact Or.inr hph

theorem vcFold_winner (idxs : List Nat) (acc : GameState)
    (h : (idxs.foldl vcStep acc).phase = Phase.gameOver) :
    ((idxs.foldl vcStep acc).gameWinner = acc.gameWinner ∧
      acc.phase = Phase.gameOver) ∨
    ∃ i ∈ idxs, ∃ p, acc.players[i]? = some p ∧
      acc.settings.victoryPointsToWin ≤ calculateVictoryPoints p ∧
      (idxs.foldl vcStep acc).gameWinner = some p.id := by
  induction idxs generalizing acc with
  | nil => exact Or.inl ⟨rfl, h⟩
  | cons i rest ih =>
    rw [List.foldl_cons] at h ⊢
    rcases ih (vcStep acc i) h with ⟨hw, hph⟩ | ⟨j, hj, p, hp, hth, hw⟩
    · by_cases htrig : ∃ p, acc.players[i]? = some p ∧
          acc.settings.victoryPointsToWin ≤ calculateVictoryPoints p
      · rcases htrig with ⟨p, hp, hth⟩
        have ht := vcStep_trigger acc i p hp hth
        exact Or.inr ⟨i, List.mem_cons_self i rest, p, hp, hth,
          by rw [hw, ht.2]⟩
      · have hnt := vcStep_no_trigger acc i htrig
        exact Or.inl ⟨by rw [hw, hnt.2], by rw [← hnt.1]; exact hph⟩
    · by_cases hji : j = i
      · subst hji
        rw [vcStep_players_self] at hp
        cases hq : acc.players[j]? with
        | none => rw [hq] at hp; cases hp
        | some q =>
          rw [hq] at hp
          injection hp with hp
          subst hp
          refine Or.inr ⟨j, List.mem_cons_self j rest, q, hq, ?_, hw⟩
          rw [calcVP_updVP] at hth
          simpa [(vcStep_frame acc j).1] using hth
      · rw [vcStep_players_ne _ _ _ hji] at hp
        refine Or.inr ⟨j, List.mem_cons_of_mem _ hj, p, hp, ?_, hw⟩
        simpa [(vcStep_frame acc i).1] using hth

end Catan

namespace Catan

/-! ## Claim C3 (amended): victory detection happens in `endTurn` only -/

theorem checkVictory_spec (s2 : GameState) (hph2 : s2.phase = Phase.mainGame) :
    ((checkVictoryConditionS s2).phase = Phase.gameOver ↔
      ∃ p ∈ (checkVictoryConditionS s2).players,
        (checkVictoryConditionS s2).settings.victoryPointsToWin ≤ p.victoryPoints) ∧
    ((checkVictoryConditionS s2).phase = Phase.gameOver →
      ∃ p ∈ (checkVictoryConditionS s2).players,
        (checkVictoryConditionS s2).settings.victoryPointsToWin ≤ p.victoryPoints ∧
        (checkVictoryConditionS s2).gameWinner = some p.id) ∧
    ((checkVictoryConditionS s2).phase ≠ Phase.gameOver →
      (checkVictoryConditionS s2).phase = Phase.mainGame) := by
  rw [checkVictoryConditionS_eq]
  constructor
  · constructor
    · intro hgo
      rcases (vcFold_phase _ _).mp hgo with hph | ⟨i, hi, p, hp, hth⟩
      · rw [hph2] at hph; cases hph
      · have hcalc := vcFold_calcOf (List.range s2.players.length) s2 i
        rw [hp] at hcalc
        cases hfin : ((List.range s2.players.length).foldl vcStep
            s2).players[i]? with
        | none => rw [hfin] at hcalc; cases hcalc
        | some p2 =>
          rw [hfin] at hcalc
          injection hcalc with hcalc
          have hgood := vcFold_totalGood (List.range s2.players.length)
            s2 i (Or.inl hi) p2 hfin
          refine ⟨p2, List.mem_iff_getElem?.mpr ⟨i, hfin⟩, ?_⟩
          rw [vcFold_settings, hgood, hcalc]
          exact hth
    · rintro ⟨p, hmem, hth⟩
      rcases List.mem_iff_getElem?.mp hmem with ⟨j, hj⟩
      have hjlt : j ∈ List.range s2.players.length := by
        refine List.mem_range.mpr ?_
        have hlen := vcFold_length (List.range s2.players.length) s2
        obtain ⟨hb, -⟩ := List.getElem?_eq_some_iff.mp hj
        rw [hlen] at hb
        exact hb
      have hgood := vcFold_totalGood (List.range s2.players.length) s2 j
        (Or.inl hjlt) p hj
      have hcalc := vcFold_calcOf (List.range s2.players.length) s2 j
      rw [hj] at hcalc
      cases hq : s2.players[j]? with
      | none => rw [hq] at hcalc; cases hcalc
      | some q =>
        rw [hq] at hcalc
        injection hcalc with hcalc
        refine (vcFold_phase _ _).mpr (Or.inr ⟨j, hjlt, q, hq, ?_⟩)
        rw [vcFold_settings] at hth
        rw [← hcalc, ← hgood]
        exact hth
  · constructor
    · intro hgo
      rcases vcFold_winner _ _ hgo with ⟨_, hph⟩ | ⟨i, hi, p, hp, hth, hw⟩
      · rw [hph2] at hph; cases hph
      · have hcalc := vcFold_calcOf (List.range s2.players.length) s2 i
        have hid := vcFold_idOf (List.range s2.players.length) s2 i
        rw [hp] at hcalc hid
        cases hfin : ((List.range s2.players.length).foldl vcStep
            s2).players[i]? with
        | none => rw [hfin] at hcalc; cases hcalc
        | some p2 =>
          rw [hfin] at hcalc hid
          injection hcalc with hcalc
          injection hid with hid
          have hgood := vcFold_totalGood (List.range s2.players.length)
            s2 i (Or.inl hi) p2 hfin
          refine ⟨p2, List.mem_iff_getElem?.mpr ⟨i, hfin⟩, ?_, ?_⟩
          · rw [vcFold_settings, hgood, hcalc]
            exact hth
          · rw [hw, hid]
    · intro hne
      rcases vcFold_phase_or (List.range s2.players.length) s2 with hph | hph
      · rw [hph, hph2]
      · exact absurd hph hne

/-- C3 (amended). The victory check runs inside `endTurn`: after a
successful `endTurn` the phase is `gameOver` exactly when some player
holds at least the configured threshold in the stored total
`victoryPoints`, and in that case a winner at or above the threshold is
recorded; otherwise the game stays in the main phase.  (Build commands do
not perform this check; see the counterexample.) -/
theorem claim_C3_victory_at_endTurn (s sf : GameState)
    (h : endTurn s = Except.ok sf) :
    (sf.phase = Phase.gameOver ↔
      ∃ p ∈ sf.players, sf.settings.victoryPointsToWin ≤ p.victoryPoints) ∧
    (sf.phase = Phase.gameOver →
      ∃ p ∈ sf.players, sf.settings.victoryPointsToWin ≤ p.victoryPoints ∧
        sf.gameWinner = some p.id) ∧
    (sf.phase ≠ Phase.gameOver → sf.phase = Phase.mainGame) := by
  unfold endTurn at h
  split at h
  · exact absurd h (by simp [fail])
  · rename_i hmain
    rw [not_not] at hmain
    split at h
    · exact absurd h (by simp [fail])
    · injection h with h
      subst h
      exact checkVictory_spec _ hmain

end Catan

namespace Catan

/-- C3 counterexample state: player 0 holds 9 points (1 settlement and 4
cities), the settlement price, and a road to the empty node 0. -/
def c3s : GameState :=
  { baseState with
    board := { emptyBoard with
      nodes := [⟨0, [], [1], none, none, none⟩, ⟨1, [], [0], none, none, none⟩]
      edges := [⟨0, 0, 1, some 0⟩] }
    players := [{ mkPlayer 0 with
      resources := ⟨1, 1, 1, 1, 0⟩
      settlements := [2]
      cities := [3, 4, 5, 6]
      roads := [0]
      victoryPoints := 9
      buildingsRemaining := ⟨1, 0, 14⟩ }, mkPlayer 1] }

/-- The state after the counterexample `buildSettlement` call. -/
def c3after : GameState := ((buildSettlement c3s 0).toOption).getD c3s

theorem claim_C3_counterexample :
    (buildSettlement c3s 0).toOption = some c3after ∧
    (∃ p ∈ c3after.players,
      c3after.settings.victoryPointsToWin ≤ p.victoryPoints) ∧
    c3after.phase = Phase.mainGame := by decide

/-- C3 witness state: an `endTurn` with a 10-point player on the table. -/
def w3 : GameState :=
  { baseState with
    players := [{ mkPlayer 0 with
      cities := [1, 2, 3, 4]
      settlements := [5, 6] }, mkPlayer 1] }

/-- The state after the witness `endTurn` call. -/
def w3after : GameState := ((endTurn w3).toOption).getD w3

theorem claim_C3_witness : w3after.phase = Phase.gameOver :=
  (claim_C3_victory_at_endTurn w3 w3after (by rfl)).1.mpr (by decide)

end Catan

namespace Catan

/-! ## Stored victory-point fields after a recomputation -/

/-- Slot `j` of state `t` stores exactly the recomputed totals. -/
def slotGood (t : GameState) (j : Nat) : Prop :=
  ∀ p, t.players[j]? = some p →
    p.victoryPoints = calculateVictoryPoints p ∧
    p.publicVictoryPoints = calculatePublicVictoryPoints p t

theorem updVP_good (acc t : GameState) (p : Player)
    (h1 : t.longestRoadPlayer = acc.longestRoadPlayer)
    (h2 : t.largestArmyPlayer = acc.largestArmyPlayer) :
    (updVP acc p).victoryPoints = calculateVictoryPoints (updVP acc p) ∧
    (updVP acc p).publicVictoryPoints
      = calculatePublicVictoryPoints (updVP acc p) t := by
  constructor
  · rfl
  · show calculatePublicVictoryPoints p acc = _
    rw [calcPublic_updVP, calcPublic_congr _ _ _ h1 h2]

theorem vcStep_slotGood (acc : GameState) (i j : Nat)
    (h : j = i ∨ slotGood acc j) : slotGood (vcStep acc i) j := by
  intro p hp
  by_cases hj : j = i
  · subst hj
    rw [vcStep_players_self] at hp
    cases hq : acc.players[j]? with
    | none => rw [hq] at hp; cases hp
    | some q =>
      rw [hq] at hp
      injection hp with hp
      subst hp
      exact updVP_good acc _ q (vcStep_frame acc j).2.2.1
        (vcStep_frame acc j).2.2.2.1
  · rw [vcStep_players_ne _ _ _ hj] at hp
    rcases (h.resolve_left hj) p hp with ⟨h1, h2⟩
    refine ⟨h1, ?_⟩
    rw [h2, calcPublic_congr _ _ _ (vcStep_frame acc i).2.2.1
      (vcStep_frame acc i).2.2.2.1]

theorem vcFold_slotGood (idxs : List Nat) (acc : GameState) (j : Nat)
    (h : j ∈ idxs ∨ slotGood acc j) : slotGood (idxs.foldl vcStep acc) j := by
  induction idxs generalizing acc with
  | nil => exact h.resolve_left (List.not_mem_nil j)
  | cons i rest ih =>
    rw [List.foldl_cons]
    refine ih (vcStep acc i) ?_
    by_cases hj : j ∈ rest
    · exact Or.inl hj
    · refine Or.inr (vcStep_slotGood acc i j ?_)
      rcases h with hmem | hgood
      · rcases List.mem_cons.mp hmem with he | hr
        · exact Or.inl he
        · exact absurd hr hj
      · exact Or.inr hgood

/-! The plain `updateVictoryPoints` fold used when Longest Road changes. -/

theorem uvStep_frame (acc : GameState) (i : Nat) :
    (updateVictoryPointsS acc i).longestRoadPlayer = acc.longestRoadPlayer ∧
    (updateVictoryPointsS acc i).largestArmyPlayer = acc.largestArmyPlayer :=
  ⟨rfl, rfl⟩

theorem uvStep_slotGood (acc : GameState) (i j : Nat)
    (h : j = i ∨ slotGood acc j) : slotGood (updateVictoryPointsS acc i) j := by
  intro p hp
  rw [updateVictoryPointsS_eq] at hp
  by_cases hj : j = i
  · subst hj
    rw [updatePlayer_get_self] at hp
    cases hq : acc.players[j]? with
    | none => rw [hq] at hp; cases hp
    | some q =>
      rw [hq] at hp
      injection hp with hp
      subst hp
      exact updVP_good acc _ q rfl rfl
  · rw [updatePlayer_get_ne _ _ _ _ hj] at hp
    rcases (h.resolve_left hj) p hp with ⟨h1, h2⟩
    exact ⟨h1, by rw [h2]; exact (calcPublic_congr _ _ _ rfl rfl).symm ▸ rfl⟩

theorem uvFold_slotGood (idxs : List Nat) (acc : GameState) (j : Nat)
    (h : j ∈ idxs ∨ slotGood acc j) :
    slotGood (idxs.foldl (fun a i => updateVictoryPointsS a i) acc) j := by
  induction idxs generalizing acc with
  | nil => exact h.resolve_left (List.not_mem_nil j)
  | cons i rest ih =>
    rw [List.foldl_cons]
    refine ih (updateVictoryPointsS acc i) ?_
    by_cases hj : j ∈ rest
    · exact Or.inl hj
    · refine Or.inr (uvStep_slotGood acc i j ?_)
      rcases h with hmem | hgood
      · rcases List.mem_cons.mp hmem with he | hr
        · exact Or.inl he
        · exact absurd hr hj
      · exact Or.inr hgood

theorem uvFold_length (idxs : List Nat) (acc : GameState) :
    (idxs.foldl (fun a i => updateVictoryPointsS a i) acc).players.length
      = acc.players.length := by
  induction idxs generalizing acc with
  | nil => rfl
  | cons i rest ih =>
    rw [List.foldl_cons, ih]
    exact updateNth_length _ _ _

end Catan

namespace Catan

theorem checkLongestRoadS_slotGood (t : GameState) (j : Nat)
    (hbase : slotGood t j) : slotGood (checkLongestRoadS t) j := by
  unfold checkLongestRoadS
  dsimp only
  split
  · intro p hp
    obtain ⟨hb, -⟩ := List.getElem?_eq_some_iff.mp hp
    rw [uvFold_length] at hb
    exact uvFold_slotGood _ _ j (Or.inl (List.mem_range.mpr hb)) p hp
  · exact hbase

theorem checkVictory_slotGood (t : GameState) (j : Nat) :
    slotGood (checkVictoryConditionS t) j := by
  rw [checkVictoryConditionS_eq]
  intro p hp
  obtain ⟨hb, -⟩ := List.getElem?_eq_some_iff.mp hp
  rw [vcFold_length] at hb
  exact vcFold_slotGood _ _ j (Or.inl (List.mem_range.mpr hb)) p hp

theorem calcVP_formula (p : Player) :
    calculateVictoryPoints p = (p.settlements.length : Int)
      + 2 * (p.cities.length : Int) + p.developmentCards.victoryPoint := by
  unfold calculateVictoryPoints
  ring

theorem calcPublic_formula (p : Player) (s : GameState) :
    calculatePublicVictoryPoints p s = (p.settlements.length : Int)
      + 2 * (p.cities.length : Int)
      + (if s.longestRoadPlayer = some p.id then 2 else 0)
      + (if s.largestArmyPlayer = some p.id then 2 else 0) := by
  unfold calculatePublicVictoryPoints calculateVictoryPoints
  dsimp only
  split_ifs <;> ring

/-- The recomputed totals as the spec words them, relative to the final
state: buildings and hidden cards in the stored total, buildings and the
two achievement bonuses in the stored public total. -/
def actingGood (sf : GameState) (j : Nat) : Prop :=
  ∀ p, sf.players[j]? = some p →
    p.victoryPoints = (p.settlements.length : Int)
      + 2 * (p.cities.length : Int) + p.developmentCards.victoryPoint ∧
    p.publicVictoryPoints = (p.settlements.length : Int)
      + 2 * (p.cities.length : Int)
      + (if sf.longestRoadPlayer = some p.id then 2 else 0)
      + (if sf.largestArmyPlayer = some p.id then 2 else 0)

theorem slotGood_imp (t : GameState) (j : Nat) (h : slotGood t j) :
    actingGood t j := by
  intro p hp
  rcases h p hp with ⟨h1, h2⟩
  exact ⟨by rw [h1, calcVP_formula], by rw [h2, calcPublic_formula]⟩

theorem uvFold_currentPlayer (idxs : List Nat) (acc : GameState) :
    (idxs.foldl (fun a i => updateVictoryPointsS a i) acc).currentPlayer
      = acc.currentPlayer := by
  induction idxs generalizing acc with
  | nil => rfl
  | cons i rest ih => rw [List.foldl_cons, ih]; rfl

theorem checkLongestRoadS_currentPlayer (t : GameState) :
    (checkLongestRoadS t).currentPlayer = t.currentPlayer := by
  unfold checkLongestRoadS
  dsimp only
  split
  · rw [uvFold_currentPlayer]
  · rfl

/-- C2 (amended). Whenever a handler recomputes victory points
(`buildSettlement`, `buildCity`, `buyDevelopmentCard`,
`placeInitialSettlement` for the acting player; `endTurn` for every
player), the stored total equals settlements + 2 x cities +
victory-point cards, and the stored public total equals settlements +
2 x cities plus 2 for Longest Road and 2 for Largest Army; the
achievement bonuses enter only the public total, and the hidden cards
only the total. -/
theorem claim_C2_recomputed_totals :
    (∀ s nodeId sf, buildSettlement s nodeId = Except.ok sf →
      actingGood sf sf.currentPlayer) ∧
    (∀ s nodeId sf, buildCity s nodeId = Except.ok sf →
      actingGood sf sf.currentPlayer) ∧
    (∀ s sf, buyDevelopmentCard s = Except.ok sf →
      actingGood sf sf.currentPlayer) ∧
    (∀ s nodeId sf, placeInitialSettlement s nodeId = Except.ok sf →
      actingGood sf sf.currentPlayer) ∧
    (∀ s sf, endTurn s = Except.ok sf → ∀ j, actingGood sf j) := by
  refine ⟨?_, ?_, ?_, ?_, ?_⟩
  · intro s nodeId sf h
    unfold buildSettlement at h
    repeat' split at h
    all_goals try (rw [fail] at h; exact Except.noConfusion h)
    have hs := Except.ok.inj h
    subst hs
    rw [checkLongestRoadS_currentPlayer]
    exact slotGood_imp _ _ (checkLongestRoadS_slotGood _ _
      (uvStep_slotGood _ _ _ (Or.inl rfl)))
  · intro s nodeId sf h
    unfold buildCity at h
    repeat' split at h
    all_goals try (rw [fail] at h; exact Except.noConfusion h)
    have hs := Except.ok.inj h
    subst hs
    exact slotGood_imp _ _ (uvStep_slotGood _ _ _ (Or.inl rfl))
  · intro s sf h
    unfold buyDevelopmentCard at h
    repeat' split at h
    all_goals try (rw [fail] at h; exact Except.noConfusion h)
    have hs := Except.ok.inj h
    subst hs
    exact slotGood_imp _ _ (uvStep_slotGood _ _ _ (Or.inl rfl))
  · intro s nodeId sf h
    unfold placeInitialSettlement at h
    repeat' split at h
    all_goals try (rw [fail] at h; exact Except.noConfusion h)
    have hs := Except.ok.inj h
    subst hs
    exact slotGood_imp _ _ (uvStep_slotGood _ _ _ (Or.inl rfl))
  · intro s sf h j
    unfold endTurn at h
    repeat' split at h
    all_goals try (rw [fail] at h; exact Except.noConfusion h)
    have hs := Except.ok.inj h
    subst hs
    exact slotGood_imp _ _ (checkVictory_slotGood _ j)

end Catan

namespace Catan

/-- The total the claim describes, worded from the spec: buildings, hidden
victory-point cards, and both achievement bonuses in one number. -/
def claimTotalVictoryPoints (p : Player) (s : GameState) : Int :=
  (p.settlements.length : Int) * 1 + (p.cities.length : Int) * 2
    + p.developmentCards.victoryPoint * 1
    + (if s.longestRoadPlayer = some p.id then 2 else 0)
    + (if s.largestArmyPlayer = some p.id then 2 else 0)

/-- C2 counterexample state: player 0 holds one settlement and the
Longest Road award. -/
def c2s : GameState :=
  { baseState with
    longestRoadPlayer := some 0
    players := [{ mkPlayer 0 with settlements := [5] }, mkPlayer 1] }

/-- The state after the counterexample `endTurn` call. -/
def c2after : GameState := ((endTurn c2s).toOption).getD c2s

theorem claim_C2_counterexample :
    (endTurn c2s).toOption = some c2after ∧
    (c2after.players[0]?).map Player.victoryPoints = some 1 ∧
    (c2after.players[0]?).map (fun p => claimTotalVictoryPoints p c2after)
      = some 3 := by decide

/-- The state after the witness `buildCity` call of C2 (the same call as
the C10 witness). -/
def w2after : GameState := ((buildCity w10 0).toOption).getD w10

theorem claim_C2_witness :
    buildCity w10 0 = Except.ok w2after ∧ actingGood w2after w2after.currentPlayer :=
  ⟨by rfl, claim_C2_recomputed_totals.2.1 w10 0 w2after (by rfl)⟩

end Catan

namespace Catan

/-! ## Claim C4: dice production grants cities a single card -/

/-- C4 failing input: player 0 owns a city on a node adjacent to the one
wood tile with token 6; the dice show 3 and 3. -/
def c4s : GameState :=
  { baseState with
    turnPhase := .diceRoll
    board := { emptyBoard with
      tiles := [⟨0, 0, 0, .res .wood, some 6, false, false⟩]
      nodes := [⟨0, [0], [], some .city, some 0, none⟩] }
    players := [{ mkPlayer 0 with cities := [0] }, mkPlayer 1] }

/-- The state after the roll of 6. -/
def c4after : GameState := ((rollDice c4s 3 3).toOption).getD c4s

/-- C4. Evaluating `rollDice` at the failing input: the city is granted a
single wood card where the spec (and the source comment naming double
production) requires two; the phase transition to `actions` does hold. -/
theorem claim_C4_city_production :
    (rollDice c4s 3 3).toOption = some c4after ∧
    (c4after.players[0]?).map (fun p => p.resources.wood) = some 1 ∧
    c4after.turnPhase = TurnPhase.actions := by decide

end Catan

namespace Catan

/-! ## Claim C6: how `checkLongestRoad` picks the award holder -/

/-- The recomputed road length of a player entry. -/
def lrLen (s : GameState) (p : Player) : Int :=
  calculateLongestRoadForPlayer s p.id

/-- One step of the best-length scan in `checkLongestRoad`. -/
def lrStep (s : GameState) (acc : Option Nat × Int) (p : Player) :
    Option Nat × Int :=
  if lrLen s p ≥ 5 ∧ lrLen s p > acc.2 then (some p.id, lrLen s p) else acc

theorem uvFold_longestRoadPlayer (idxs : List Nat) (acc : GameState) :
    (idxs.foldl (fun a i => updateVictoryPointsS a i) acc).longestRoadPlayer
      = acc.longestRoadPlayer := by
  induction idxs generalizing acc with
  | nil => rfl
  | cons i rest ih => rw [List.foldl_cons, ih]; rfl

/-- The recorded holder after `checkLongestRoad` is always the scan
result (re-awarded when it differs, already equal otherwise). -/
theorem checkLongestRoadS_holder (s : GameState) :
    (checkLongestRoadS s).longestRoadPlayer
      = (s.players.foldl (lrStep s) (none, 0)).1 := by
  unfold checkLongestRoadS
  dsimp only
  split
  · rw [uvFold_longestRoadPlayer]
    rfl
  · rename_i hne
    rw [not_not] at hne
    exact hne.symm

theorem lrFold_spec (s : GameState) (l : List Player) (acc : Option Nat × Int) :
    (l.foldl (lrStep s) acc = acc ∧
      ∀ q ∈ l, ¬(5 ≤ lrLen s q ∧ acc.2 < lrLen s q)) ∨
    (∃ w l1 l2, l = l1 ++ w :: l2 ∧
      l.foldl (lrStep s) acc = (some w.id, lrLen s w) ∧
      5 ≤ lrLen s w ∧ acc.2 < lrLen s w ∧
      (∀ q ∈ l, lrLen s q ≤ lrLen s w ∨ lrLen s q < 5) ∧
      (∀ q ∈ l1, lrLen s q < lrLen s w ∨ lrLen s q < 5)) := by
  induction l generalizing acc with
  | nil => exact Or.inl ⟨rfl, by simp⟩
  | cons p l ih =>
    rw [List.foldl_cons]
    by_cases himp : 5 ≤ lrLen s p ∧ acc.2 < lrLen s p
    · have hstep : lrStep s acc p = (some p.id, lrLen s p) := by
        unfold lrStep
        rw [if_pos ⟨himp.1, himp.2⟩]
      rw [hstep]
      rcases ih (some p.id, lrLen s p) with ⟨heq, hnone⟩ | ⟨w, l1, l2, hdec, hres, h5, hgt, hall, hfirst⟩
      · refine Or.inr ⟨p, [], l, by simp, by rw [heq], himp.1, himp.2, ?_, by simp⟩
        intro q hq
        rcases List.mem_cons.mp hq with rfl | hql
        · exact Or.inl le_rfl
        · rcases not_and_or.mp (hnone q hql) with h5q | hle
          · exact Or.inr (lt_of_not_le h5q)
          · exact Or.inl (le_of_not_lt hle)
      · refine Or.inr ⟨w, p :: l1, l2, by rw [hdec]; rfl, hres, h5, himp.2.trans hgt, ?_, ?_⟩
        · intro q hq
          rcases List.mem_cons.mp hq with rfl | hql
          · exact Or.inl (le_of_lt hgt)
          · exact hall q hql
        · intro q hq
          rcases List.mem_cons.mp hq with rfl | hql
          · exact Or.inl hgt
          · exact hfirst q hql
    · have hstep : lrStep s acc p = acc := by
        unfold lrStep
        rw [if_neg himp]
      rw [hstep]
      rcases ih acc with ⟨heq, hnone⟩ | ⟨w, l1, l2, hdec, hres, h5, hgt, hall, hfirst⟩
      · refine Or.inl ⟨heq, ?_⟩
        intro q hq
        rcases List.mem_cons.mp hq with rfl | hql
        · exact himp
        · exact hnone q hql
      · refine Or.inr ⟨w, p :: l1, l2, by rw [hdec]; rfl, hres, h5, hgt, ?_, ?_⟩
        · intro q hq
          rcases List.mem_cons.mp hq with rfl | hql
          · rcases not_and_or.mp himp with h5q | hle
            · exact Or.inr (lt_of_not_le h5q)
            · exact Or.inl ((le_of_not_lt hle).trans (le_of_lt hgt))
          · exact hall q hql
        · intro q hq
          rcases List.mem_cons.mp hq with rfl | hql
          · rcases not_and_or.mp himp with h5q | hle
            · exact Or.inr (lt_of_not_le h5q)
            · exact Or.inl (lt_of_le_of_lt (le_of_not_lt hle) hgt)
          · exact hfirst q hql

/-- C6 (amended). `checkLongestRoad` recomputes the award from scratch:
with no qualifying length (at least 5) the holder becomes `none`; with a
qualifier the holder is the earliest player in player order whose length
attains the maximum, every other length being no greater and every
strictly earlier player strictly smaller.  A tie with the recorded holder
therefore moves the award to an earlier-indexed player instead of leaving
it in place. -/
theorem claim_C6_award_scan (s : GameState) :
    ((∀ p ∈ s.players, calculateLongestRoadForPlayer s p.id < 5) →
      (checkLongestRoadS s).longestRoadPlayer = none) ∧
    (∀ p ∈ s.players, 5 ≤ calculateLongestRoadForPlayer s p.id →
      ∃ w l1 l2, s.players = l1 ++ w :: l2 ∧
        (checkLongestRoadS s).longestRoadPlayer = some w.id ∧
        5 ≤ calculateLongestRoadForPlayer s w.id ∧
        (∀ q ∈ s.players, calculateLongestRoadForPlayer s q.id
          ≤ calculateLongestRoadForPlayer s w.id) ∧
        (∀ q ∈ l1, calculateLongestRoadForPlayer s q.id
          < calculateLongestRoadForPlayer s w.id)) := by
  constructor
  · intro hnone
    rcases lrFold_spec s s.players (none, 0) with ⟨heq, -⟩ | ⟨w, l1, l2, hdec, -, h5, -, -, -⟩
    · rw [checkLongestRoadS_holder, heq]
    · refine absurd h5 (not_le.mpr (hnone w ?_))
      rw [hdec]
      exact List.mem_append_right _ (List.mem_cons_self _ _)
  · intro p hp h5p
    rcases lrFold_spec s s.players (none, 0) with ⟨-, hnone⟩ | ⟨w, l1, l2, hdec, hres, h5, -, hall, hfirst⟩
    · have h0 : (5 : Int) ≤ lrLen s p := h5p
      exact absurd ⟨h0, show (0 : Int) < lrLen s p by linarith⟩ (hnone p hp)
    · refine ⟨w, l1, l2, hdec, ?_, h5, ?_, ?_⟩
      · rw [checkLongestRoadS_holder, hres]
      · intro q hq
        rcases hall q hq with hle | hlt
        · exact hle
        · exact le_of_lt (lt_of_lt_of_le hlt h5)
      · intro q hq
        rcases hfirst q hq with hlt | hlt
        · exact hlt
        · exact lt_of_lt_of_le hlt h5

end Catan

namespace Catan

/-- A plain unowned node for hand-built boards. -/
def plainNode (i : Nat) : Node := ⟨i, [], [], none, none, none⟩

/-- C6 counterexample state: two disjoint 5-road chains, one per player,
with the award recorded on player 1. -/
def c6s : GameState :=
  { baseState with
    longestRoadPlayer := some 1
    longestRoadLength := 5
    board := { emptyBoard with
      nodes := [plainNode 0, plainNode 1, plainNode 2, plainNode 3,
        plainNode 4, plainNode 5, plainNode 6, plainNode 7, plainNode 8,
        plainNode 9, plainNode 10, plainNode 11]
      edges := [⟨0, 0, 1, some 0⟩, ⟨1, 1, 2, some 0⟩, ⟨2, 2, 3, some 0⟩,
        ⟨3, 3, 4, some 0⟩, ⟨4, 4, 5, some 0⟩,
        ⟨5, 6, 7, some 1⟩, ⟨6, 7, 8, some 1⟩, ⟨7, 8, 9, some 1⟩,
        ⟨8, 9, 10, some 1⟩, ⟨9, 10, 11, some 1⟩] }
    players := [{ mkPlayer 0 with roads := [0, 1, 2, 3, 4] },
      { mkPlayer 1 with roads := [5, 6, 7, 8, 9] }] }

theorem claim_C6_counterexample :
    c6s.longestRoadPlayer = some 1 ∧
    calculateLongestRoadForPlayer c6s 0 = 5 ∧
    calculateLongestRoadForPlayer c6s 1 = 5 ∧
    (checkLongestRoadS c6s).longestRoadPlayer = some 0 := by decide

theorem claim_C6_witness :
    (checkLongestRoadS c6s).longestRoadPlayer = some 0 := by
  obtain ⟨w, l1, l2, hdec, hres, h5, hmax, hfirst⟩ :=
    (claim_C6_award_scan c6s).2 { mkPlayer 0 with roads := [0, 1, 2, 3, 4] }
      (by decide) (by decide)
  rcases l1 with - | ⟨a, l1⟩
  · have hw : ({ mkPlayer 0 with roads := [0, 1, 2, 3, 4] } : Player) = w := by
      have hx := congrArg (fun l => l[0]?) hdec
      simpa [c6s, baseState, List.getElem?_append] using hx
    rw [hres, ← hw]
    rfl
  · have ha : a = { mkPlayer 0 with roads := [0, 1, 2, 3, 4] } := by
      have hx := congrArg (fun l => l[0]?) hdec
      simp [c6s, baseState] at hx
      exact hx.symm
    have hlen := congrArg List.length hdec
    simp [c6s, baseState] at hlen
    rcases l1 with - | ⟨b, l1⟩
    · have hw : w = { mkPlayer 1 with roads := [5, 6, 7, 8, 9] } := by
        have hx := congrArg (fun l => l[1]?) hdec
        simp [c6s, baseState] at hx
        exact hx.symm
      have hc := hfirst a (List.mem_cons_self _ _)
      rw [ha, hw] at hc
      exact absurd hc (by decide)
    · simp at hlen
      omega

end Catan

namespace Catan

/-! ## Claim C7: invariants of the generated board -/

/-- The resource drawn for layout entry `iqr` from the shuffled bag. -/
def resOf (resources : List TileKind) (iqr : Nat × Int × Int) : TileKind :=
  resources.getD (iqr.1 % resources.length) .desert

theorem genTilesGo_length (resources : List TileKind) :
    ∀ (l : List (Nat × Int × Int)) (toks : List Nat),
      (genTilesGo resources l toks).length = l.length := by
  intro l
  induction l with
  | nil => intro toks; rfl
  | cons iqr rest ih =>
    intro toks
    obtain ⟨i, q, r⟩ := iqr
    unfold genTilesGo
    split
    all_goals dsimp only
    all_goals split_ifs
    all_goals simp [ih]

theorem genTilesGo_proj (resources : List TileKind) :
    ∀ (l : List (Nat × Int × Int)) (toks : List Nat),
      (genTilesGo resources l toks).map (fun t => (t.id, t.q, t.r)) = l := by
  intro l
  induction l with
  | nil => intro toks; rfl
  | cons iqr rest ih =>
    intro toks
    obtain ⟨i, q, r⟩ := iqr
    unfold genTilesGo
    split
    all_goals dsimp only
    all_goals split_ifs
    all_goals simp [ih]

theorem genTilesGo_resources (resources : List TileKind) :
    ∀ (l : List (Nat × Int × Int)) (toks : List Nat),
      (genTilesGo resources l toks).map Tile.resource
        = l.map (resOf resources) := by
  intro l
  induction l with
  | nil => intro toks; rfl
  | cons iqr rest ih =>
    intro toks
    obtain ⟨i, q, r⟩ := iqr
    unfold genTilesGo
    split
    all_goals dsimp only
    all_goals split_ifs
    all_goals simp [ih, resOf, List.getD]

theorem genTilesGo_desert_token (resources : List TileKind) :
    ∀ (l : List (Nat × Int × Int)) (toks : List Nat),
      ∀ t ∈ genTilesGo resources l toks,
        t.resource = TileKind.desert → t.token = none := by
  intro l
  induction l with
  | nil => intro toks t ht; cases ht
  | cons iqr rest ih =>
    intro toks t ht hdes
    obtain ⟨i, q, r⟩ := iqr
    unfold genTilesGo at ht
    split at ht
    · rename_i old hlast
      dsimp only at ht
      split at ht
      · rcases List.mem_cons.mp ht with rfl | hrest
        · rfl
        · exact ih toks t hrest hdes
      · rcases List.mem_cons.mp ht with rfl | hrest
        · rename_i hres
          exact absurd hdes hres
        · exact ih toks.dropLast t hrest hdes
    · rename_i hlast
      dsimp only at ht
      split at ht
      · rcases List.mem_cons.mp ht with rfl | hrest
        · rfl
        · exact ih toks t hrest hdes
      · rcases List.mem_cons.mp ht with rfl | hrest
        · rfl
        · exact ih toks t hrest hdes

theorem genTilesGo_tokens (resources : List TileKind) :
    ∀ (l : List (Nat × Int × Int)) (toks : List Nat),
      l.countP (fun iqr => resOf resources iqr ≠ TileKind.desert)
        = toks.length →
      (genTilesGo resources l toks).filterMap Tile.token = toks.reverse := by
  intro l
  induction l with
  | nil =>
    intro toks hcnt
    rw [List.countP_nil] at hcnt
    rw [List.eq_nil_of_length_eq_zero hcnt.symm]
    rfl
  | cons iqr rest ih =>
    intro toks hcnt
    obtain ⟨i, q, r⟩ := iqr
    rw [List.countP_cons] at hcnt
    unfold genTilesGo
    split
    · rename_i old hlast
      dsimp only
      split
      · rename_i hres
        have hres2 : resOf resources (i, q, r) = TileKind.desert := hres
        have hd : ¬(fun iqr => decide (resOf resources iqr ≠ TileKind.desert))
            (i, q, r) = true := by
          simp [hres2]
        rw [if_neg hd] at hcnt
        simp only [List.filterMap_cons]
        exact ih toks (by simpa using hcnt)
      · rename_i hres
        have hres2 : ¬resOf resources (i, q, r) = TileKind.desert := hres
        have hd : (fun iqr => decide (resOf resources iqr ≠ TileKind.desert))
            (i, q, r) = true := by
          simp [hres2]
        rw [if_pos hd] at hcnt
        have hsplit : toks.dropLast ++ [old] = toks :=
          List.dropLast_append_getLast? old hlast
        have hdl : toks.dropLast.length + 1 = toks.length := by
          rw [← hsplit]; simp
        simp only [List.filterMap_cons]
        rw [ih toks.dropLast (by omega), ← hsplit, List.reverse_append]
        simp
    · rename_i hlast
      rw [List.getLast?_eq_none_iff] at hlast
      subst hlast
      dsimp only
      split
      · rename_i hres
        have hres2 : resOf resources (i, q, r) = TileKind.desert := hres
        have hd : ¬(fun iqr => decide (resOf resources iqr ≠ TileKind.desert))
            (i, q, r) = true := by
          simp [hres2]
        rw [if_neg hd] at hcnt
        simp only [List.filterMap_cons]
        exact ih [] (by simpa using hcnt)
      · rename_i hres
        have hres2 : ¬resOf resources (i, q, r) = TileKind.desert := hres
        have hd : (fun iqr => decide (resOf resources iqr ≠ TileKind.desert))
            (i, q, r) = true := by
          simp [hres2]
        rw [if_pos hd] at hcnt
        simp at hcnt

end Catan

namespace Catan

theorem map_getD_range (l : List α) (d : α) :
    (List.range l.length).map (fun i => l.getD i d) = l := by
  induction l with
  | nil => rfl
  | cons a l ih =>
    rw [List.length_cons, List.range_succ_eq_map, List.map_cons, List.map_map]
    have hc : ((fun i => (a :: l).getD i d) ∘ Nat.succ) = fun i => l.getD i d := by
      funext i
      rfl
    rw [hc, ih]
    rfl

theorem enum_map_resOf (res : List TileKind) (hlen : res.length = 19) :
    STANDARD_HEX_LAYOUT.enum.map (resOf res) = res := by
  have h1 : STANDARD_HEX_LAYOUT.enum.map (resOf res)
      = (List.range 19).map (fun i => res.getD (i % res.length) .desert) := rfl
  have h2 : (List.range 19).map (fun i => res.getD (i % res.length) .desert)
      = (List.range 19).map (fun i => res.getD i .desert) := by
    apply List.map_congr_left
    intro i hi
    rw [hlen, Nat.mod_eq_of_lt (List.mem_range.mp hi)]
  rw [h1, h2, ← hlen, map_getD_range]

theorem generateTiles_resources (res : List TileKind) (toks : List Nat)
    (hlen : res.length = 19) :
    (generateTiles res toks).map Tile.resource = res := by
  unfold generateTiles
  rw [genTilesGo_resources, enum_map_resOf res hlen]

theorem generateTiles_tokens (res : List TileKind) (toks : List Nat)
    (hres : res.Perm STANDARD_RESOURCES) (htok : toks.Perm TOKENS_LIST) :
    (generateTiles res toks).filterMap Tile.token = toks.reverse := by
  apply genTilesGo_tokens
  have hlen : res.length = 19 := by
    rw [hres.length_eq]
    rfl
  have hc : (fun iqr => decide (resOf res iqr ≠ TileKind.desert))
      = ((fun k => decide (k ≠ TileKind.desert)) ∘ resOf res) := rfl
  rw [hc, ← List.countP_map, enum_map_resOf res hlen, hres.countP_eq,
    htok.length_eq]
  decide

set_option maxHeartbeats 4000000 in
set_option maxRecDepth 10000 in
/-- C7. For every outcome of the two shuffles, the generated board has 19
tiles, exactly one desert, the standard resource counts, the full 18-token
multiset on the non-desert tiles with the desert unnumbered and no 7
anywhere, exactly 54 deduplicated nodes, and exactly 72 canonicalized
edges. -/
theorem claim_C7_generated_board (resources : List TileKind)
    (tokens : List Nat) (hres : resources.Perm STANDARD_RESOURCES)
    (htok : tokens.Perm TOKENS_LIST) :
    (generateRandomBoard resources tokens).tiles.length = 19 ∧
    (generateRandomBoard resources tokens).tiles.countP
      (fun t => t.resource = TileKind.desert) = 1 ∧
    (generateRandomBoard resources tokens).tiles.countP
      (fun t => t.resource = TileKind.res Res.wood) = 4 ∧
    (generateRandomBoard resources tokens).tiles.countP
      (fun t => t.resource = TileKind.res Res.brick) = 3 ∧
    (generateRandomBoard resources tokens).tiles.countP
      (fun t => t.resource = TileKind.res Res.sheep) = 4 ∧
    (generateRandomBoard resources tokens).tiles.countP
      (fun t => t.resource = TileKind.res Res.wheat) = 4 ∧
    (generateRandomBoard resources tokens).tiles.countP
      (fun t => t.resource = TileKind.res Res.ore) = 3 ∧
    ((generateRandomBoard resources tokens).tiles.filterMap Tile.token).Perm
      TOKENS_LIST ∧
    (∀ t ∈ (generateRandomBoard resources tokens).tiles,
      t.resource = TileKind.desert → t.token = none) ∧
    (∀ t ∈ (generateRandomBoard resources tokens).tiles,
      t.token ≠ some 7) ∧
    (generateRandomBoard resources tokens).nodes.length = 54 ∧
    (generateRandomBoard resources tokens).edges.length = 72 := by
  have hlen : resources.length = 19 := by
    rw [hres.length_eq]
    rfl
  have htiles : (generateRandomBoard resources tokens).tiles
      = generateTiles resources tokens := rfl
  have hrmap := generateTiles_resources resources tokens hlen
  have htokmap := generateTiles_tokens resources tokens hres htok
  have hcount : ∀ p : TileKind → Bool,
      (generateRandomBoard resources tokens).tiles.countP
        (fun t => p t.resource) = STANDARD_RESOURCES.countP p := by
    intro p
    rw [htiles]
    have hc : (fun t : Tile => p t.resource) = (p ∘ Tile.resource) := rfl
    rw [hc, ← List.countP_map, hrmap, hres.countP_eq]
  refine ⟨?_,
    (hcount (fun k => decide (k = TileKind.desert))).trans (by decide),
    (hcount (fun k => decide (k = TileKind.res Res.wood))).trans (by decide),
    (hcount (fun k => decide (k = TileKind.res Res.brick))).trans (by decide),
    (hcount (fun k => decide (k = TileKind.res Res.sheep))).trans (by decide),
    (hcount (fun k => decide (k = TileKind.res Res.wheat))).trans (by decide),
    (hcount (fun k => decide (k = TileKind.res Res.ore))).trans (by decide),
    ?_, ?_, ?_, ?_, ?_⟩
  · rw [htiles]
    unfold generateTiles
    rw [genTilesGo_length]
    rfl
  · rw [htiles, htokmap]
    exact (List.reverse_perm tokens).trans htok
  · rw [htiles]
    exact genTilesGo_desert_token resources _ tokens
  · intro t ht hc
    rw [htiles] at ht
    have h7 : (7 : Nat) ∈ (generateTiles resources tokens).filterMap Tile.token :=
      List.mem_filterMap.mpr ⟨t, ht, hc⟩
    rw [htokmap] at h7
    have h7' : (7 : Nat) ∈ TOKENS_LIST :=
      htok.mem_iff.mp ((List.reverse_perm tokens).mem_iff.mp h7)
    exact absurd h7' (by decide)
  · unfold generateRandomBoard
    dsimp only
    unfold generateNodesAndEdges generateTiles
    rw [genTilesGo_proj]
    decide
  · unfold generateRandomBoard
    dsimp only
    unfold generateNodesAndEdges generateTiles
    rw [genTilesGo_proj]
    decide

set_option maxHeartbeats 1000000 in
set_option maxRecDepth 10000 in
theorem claim_C7_witness :
    (generateRandomBoard STANDARD_RESOURCES TOKENS_LIST).tiles.length = 19 ∧
    (generateRandomBoard STANDARD_RESOURCES TOKENS_LIST).nodes.length = 54 ∧
    (generateRandomBoard STANDARD_RESOURCES TOKENS_LIST).edges.length = 72 :=
  ⟨(claim_C7_generated_board STANDARD_RESOURCES TOKENS_LIST
      (List.Perm.refl _) (List.Perm.refl _)).1,
   (claim_C7_generated_board STANDARD_RESOURCES TOKENS_LIST
      (List.Perm.refl _) (List.Perm.refl _)).2.2.2.2.2.2.2.2.2.2.1,
   (claim_C7_generated_board STANDARD_RESOURCES TOKENS_LIST
      (List.Perm.refl _) (List.Perm.refl _)).2.2.2.2.2.2.2.2.2.2.2⟩

end Catan

namespace Catan

/-! ## Nonnegativity of resource counts (C9) -/

/-- Every count of the resource map is nonnegative. -/
def resNonneg (m : Resources) : Prop := ∀ r, 0 ≤ m.get r

instance (m : Resources) : Decidable (resNonneg m) :=
  decidable_of_iff
    (0 ≤ m.wood ∧ 0 ≤ m.brick ∧ 0 ≤ m.sheep ∧ 0 ≤ m.wheat ∧ 0 ≤ m.ore)
    (by
      constructor
      · rintro ⟨h1, h2, h3, h4, h5⟩ r
        cases r <;> assumption
      · intro h
        exact ⟨h .wood, h .brick, h .sheep, h .wheat, h .ore⟩)

/-- Every player of the list holds a nonnegative resource map. -/
def playersNonneg (l : List Player) : Prop := ∀ p ∈ l, resNonneg p.resources

/-- The C9 invariant on a game state. -/
def stateNonneg (s : GameState) : Prop := playersNonneg s.players

instance (s : GameState) : Decidable (stateNonneg s) := by
  unfold stateNonneg playersNonneg
  infer_instance

/-- The C9 invariant on the outcome of a command, error states included. -/
def resultNonneg : EngineResult → Prop
  | .ok sf => stateNonneg sf
  | .error (_, sf) => stateNonneg sf

theorem Resources.get_add_self (m : Resources) (r : Res) (n : Int) :
    (m.add r n).get r = m.get r + n := by
  cases r <;> rfl

theorem Resources.get_add_ne (m : Resources) {r q : Res} (n : Int)
    (h : q ≠ r) : (m.add r n).get q = m.get q := by
  cases r <;> cases q <;> first | rfl | exact absurd rfl h

theorem Resources.get_set_self (m : Resources) (r : Res) (v : Int) :
    (m.set r v).get r = v := by
  cases r <;> rfl

theorem Resources.get_set_ne (m : Resources) {r q : Res} (v : Int)
    (h : q ≠ r) : (m.set r v).get q = m.get q := by
  cases r <;> cases q <;> first | rfl | exact absurd rfl h

theorem resNonneg_add {m : Resources} (h : resNonneg m) (r : Res) {n : Int}
    (hn : 0 ≤ n) : resNonneg (m.add r n) := by
  intro q
  by_cases hq : q = r
  · subst hq
    rw [Resources.get_add_self]
    have := h q
    omega
  · rw [Resources.get_add_ne m n hq]
    exact h q

theorem resNonneg_sub {m : Resources} (h : resNonneg m) {r : Res} {n : Int}
    (hn : n ≤ m.get r) : resNonneg (m.add r (-n)) := by
  intro q
  by_cases hq : q = r
  · subst hq
    rw [Resources.get_add_self]
    omega
  · rw [Resources.get_add_ne m (-n) hq]
    exact h q

theorem resNonneg_foldl {β : Type} {g : Resources → β → Resources}
    (hg : ∀ acc b, resNonneg acc → resNonneg (g acc b)) :
    ∀ (l : List β) (m : Resources), resNonneg m → resNonneg (l.foldl g m) := by
  intro l
  induction l with
  | nil => intro m hm; exact hm
  | cons b bs ih => intro m hm; exact ih (g m b) (hg m b hm)

theorem mem_updateNth {l : List α} {i : Nat} {f : α → α} {x : α}
    (hx : x ∈ updateNth l i f) : x ∈ l ∨ ∃ a, l[i]? = some a ∧ x = f a := by
  unfold updateNth at hx
  cases h : l[i]? with
  | none => rw [h] at hx; exact Or.inl hx
  | some a =>
    rw [h] at hx
    rcases List.mem_or_eq_of_mem_set hx with h1 | h2
    · exact Or.inl h1
    · exact Or.inr ⟨a, rfl, h2⟩

theorem playersNonneg_updateNth {l : List Player} {i : Nat}
    {f : Player → Player} (hl : playersNonneg l)
    (hf : ∀ a, l[i]? = some a → resNonneg (f a).resources) :
    playersNonneg (updateNth l i f) := by
  intro x hx
  rcases mem_updateNth hx with h | ⟨a, ha, rfl⟩
  · exact hl x h
  · exact hf a ha

theorem stateNonneg_updatePlayer {s : GameState} {i : Nat}
    {f : Player → Player} (hs : stateNonneg s)
    (hf : ∀ a, s.players[i]? = some a → resNonneg (f a).resources) :
    stateNonneg (updatePlayer s i f) :=
  playersNonneg_updateNth hs hf

theorem playersNonneg_map {l : List Player} {g : Player → Player}
    (hg : ∀ p ∈ l, resNonneg (g p).resources) :
    playersNonneg (l.map g) := by
  intro x hx
  rcases List.mem_map.mp hx with ⟨p, hp, rfl⟩
  exact hg p hp

theorem stateNonneg_foldl {β : Type} {g : GameState → β → GameState}
    (hg : ∀ acc b, stateNonneg acc → stateNonneg (g acc b)) :
    ∀ (l : List β) (s : GameState), stateNonneg s →
      stateNonneg (l.foldl g s) := by
  intro l
  induction l with
  | nil => intro s hs; exact hs
  | cons b bs ih => intro s hs; exact ih (g s b) (hg s b hs)

end Catan

namespace Catan

theorem payFor_nonneg {p : Player} {b : BuildingType}
    (hc : canAffordBuilding p b = true) (h : resNonneg p.resources) :
    resNonneg (payForBuilding p b) := by
  have hw := h .wood
  have hbr := h .brick
  have hsh := h .sheep
  have hwh := h .wheat
  have ho := h .ore
  simp only [Resources.get] at hw hbr hsh hwh ho
  cases b <;>
  · simp only [canAffordBuilding, buildingCost, List.all_cons, List.all_nil,
      Bool.and_eq_true, decide_eq_true_eq, ge_iff_le, Resources.get,
      and_true] at hc
    intro q
    cases q <;>
      simp only [payForBuilding, buildingCost, List.foldl_cons, List.foldl_nil,
        Resources.add, Resources.set, Resources.get] <;>
      omega

theorem mem_victimAvail {m : Resources} {r : Res} (hr : r ∈ victimAvail m) :
    1 ≤ m.get r := by
  unfold victimAvail at hr
  simp only [List.mem_append, List.mem_replicate] at hr
  rcases hr with ((((⟨hn, rfl⟩ | ⟨hn, rfl⟩) | ⟨hn, rfl⟩) | ⟨hn, rfl⟩) | ⟨hn, rfl⟩) <;>
    simp only [Resources.get] <;> omega

theorem stealRandomCardE_nonneg {s : GameState} {stealerId victimId k : Nat}
    (hs : stateNonneg s) :
    resultNonneg ((stealRandomCardE s stealerId victimId k).mapError
      (fun sE => ("TypeError", sE))) := by
  unfold stealRandomCardE
  cases hv : s.players[victimId]? with
  | none => exact hs
  | some victim =>
    dsimp only
    split
    · exact hs
    · rename_i hlen
      have hvm : victim ∈ s.players := List.getElem?_mem hv
      have hva := hs victim hvm
      have hmem : (victimAvail victim.resources).getD
          (k % (victimAvail victim.resources).length) .wood
          ∈ victimAvail victim.resources := by
        have hlt : k % (victimAvail victim.resources).length
            < (victimAvail victim.resources).length :=
          Nat.mod_lt _ (Nat.pos_of_ne_zero hlen)
        rw [List.getD_eq_getElem?_getD, List.getElem?_eq_getElem hlt]
        exact List.getElem_mem _
      have h1 : stateNonneg (updatePlayer s victimId fun v =>
          { v with resources := (v.resources.add
            ((victimAvail victim.resources).getD
              (k % (victimAvail victim.resources).length) .wood) (-1)) }) := by
        apply stateNonneg_updatePlayer hs
        intro a ha
        rw [hv] at ha
        cases ha
        exact resNonneg_sub hva (mem_victimAvail hmem)
      split
      · exact h1
      · exact stateNonneg_updatePlayer h1 fun a ha =>
          resNonneg_add (h1 a (List.getElem?_mem ha)) _ (by omega)

theorem discardFold_nonneg :
    ∀ (cards : List (Res × Int)) (m : Resources), resNonneg m →
      (cards.map Prod.fst).Nodup →
      (∀ rc ∈ cards, rc.2 ≤ m.get rc.1) →
      resNonneg (cards.foldl (fun acc rc => acc.add rc.1 (-rc.2)) m) := by
  intro cards
  induction cards with
  | nil => intro m hm _ _; exact hm
  | cons rc rest ih =>
    intro m hm hnd hall
    simp only [List.map_cons, List.nodup_cons] at hnd
    apply ih (m.add rc.1 (-rc.2))
    · exact resNonneg_sub hm (hall rc (List.mem_cons_self rc rest))
    · exact hnd.2
    · intro rc2 h2
      have hne : rc2.1 ≠ rc.1 := by
        intro he
        exact hnd.1 (he ▸ List.mem_map_of_mem Prod.fst h2)
      rw [Resources.get_add_ne m (-rc.2) hne]
      exact hall rc2 (List.mem_cons_of_mem rc h2)

end Catan

namespace Catan

theorem updVP_resources (acc : GameState) (p : Player) :
    (updVP acc p).resources = p.resources := rfl

theorem updateVictoryPointsS_nonneg {s : GameState} (hs : stateNonneg s)
    (i : Nat) : stateNonneg (updateVictoryPointsS s i) := by
  rw [updateVictoryPointsS_eq]
  exact stateNonneg_updatePlayer hs fun a ha =>
    hs a (List.getElem?_mem ha)

theorem checkVictoryConditionS_nonneg {s : GameState} (hs : stateNonneg s) :
    stateNonneg (checkVictoryConditionS s) := by
  unfold checkVictoryConditionS
  apply stateNonneg_foldl ?_ _ _ hs
  intro acc i hacc
  have h1 := updateVictoryPointsS_nonneg hacc i
  dsimp only
  split
  · exact h1
  · split
    · exact h1
    · exact h1

theorem checkLongestRoadS_nonneg {s : GameState} (hs : stateNonneg s) :
    stateNonneg (checkLongestRoadS s) := by
  unfold checkLongestRoadS
  dsimp only
  split
  · exact stateNonneg_foldl (fun acc i hacc => updateVictoryPointsS_nonneg hacc i)
      _ _ hs
  · exact hs

theorem grantInitialResourcesS_nonneg {s : GameState} (hs : stateNonneg s)
    (pIdx nodeId : Nat) : stateNonneg (grantInitialResourcesS s pIdx nodeId) := by
  unfold grantInitialResourcesS
  split
  · exact hs
  · apply stateNonneg_updatePlayer hs
    intro a ha
    apply resNonneg_foldl ?_ _ _ (hs a (List.getElem?_mem ha))
    intro acc tid hacc
    dsimp only
    split
    · split
      · exact resNonneg_add hacc _ (by omega)
      · exact hacc
    · exact hacc

theorem endSetupTurn_nonneg {s : GameState} (hs : stateNonneg s) :
    stateNonneg (endSetupTurn s) := by
  unfold endSetupTurn startMainGame
  dsimp only
  split
  · split
    · exact hs
    · exact hs
  · split
    · exact hs
    · exact hs

theorem tileGrant_nonneg {tiles : List Tile} {roll : Nat} {acc : Resources}
    (hacc : resNonneg acc) (tid : Nat) :
    resNonneg (tileGrant tiles roll acc tid) := by
  unfold tileGrant
  split
  · exact hacc
  · split
    · split
      · exact resNonneg_add hacc _ (by omega)
      · exact hacc
    · exact hacc

theorem nodeGrant_nonneg {s : GameState} {roll : Nat} {acc : Resources}
    (hacc : resNonneg acc) (nid : Nat) :
    resNonneg (nodeGrant s roll acc nid) := by
  unfold nodeGrant
  split
  · exact hacc
  · exact resNonneg_foldl (fun a b ha => tileGrant_nonneg ha b) _ _ hacc

theorem produceResources_nonneg {s : GameState} (hs : stateNonneg s)
    (roll : Nat) : stateNonneg (produceResources s roll) := by
  unfold produceResources
  apply playersNonneg_map
  intro p hp
  dsimp only
  apply resNonneg_foldl (fun a b ha => nodeGrant_nonneg ha b)
  apply resNonneg_foldl (fun a b ha => nodeGrant_nonneg ha b)
  exact hs p hp

theorem handleRobberRoll_nonneg {s : GameState} (hs : stateNonneg s) :
    stateNonneg (handleRobberRoll s) := by
  unfold handleRobberRoll
  dsimp only
  split
  · apply playersNonneg_map
    intro p hp
    dsimp only
    split
    · exact hs p hp
    · exact hs p hp
  · apply playersNonneg_map
    intro p hp
    dsimp only
    split
    · exact hs p hp
    · exact hs p hp

end Catan

namespace Catan

theorem placeInitialSettlement_nonneg {s : GameState} (hs : stateNonneg s)
    (nodeId : Nat) : resultNonneg (placeInitialSettlement s nodeId) := by
  unfold placeInitialSettlement
  repeat' split
  all_goals try exact hs
  dsimp only
  split
  · refine updateVictoryPointsS_nonneg (grantInitialResourcesS_nonneg ?_ _ _) _
    show playersNonneg _
    exact playersNonneg_updateNth hs fun a ha => hs a (List.getElem?_mem ha)
  · refine updateVictoryPointsS_nonneg ?_ _
    show playersNonneg _
    exact playersNonneg_updateNth hs fun a ha => hs a (List.getElem?_mem ha)

theorem placeInitialRoad_nonneg {s : GameState} (hs : stateNonneg s)
    (edgeId : Nat) : resultNonneg (placeInitialRoad s edgeId) := by
  unfold placeInitialRoad
  repeat' split
  all_goals try exact hs
  dsimp only
  repeat' split
  all_goals try exact hs
  · refine endSetupTurn_nonneg ?_
    show playersNonneg _
    exact playersNonneg_updateNth hs fun a ha => hs a (List.getElem?_mem ha)
  · show playersNonneg _
    exact playersNonneg_updateNth hs fun a ha => hs a (List.getElem?_mem ha)

theorem rollDice_nonneg {s : GameState} (hs : stateNonneg s) (d1 d2 : Nat) :
    resultNonneg (rollDice s d1 d2) := by
  unfold rollDice
  repeat' split
  all_goals try exact hs
  dsimp only
  split
  · refine handleRobberRoll_nonneg ?_
    show playersNonneg _
    exact hs
  · show playersNonneg _
    exact produceResources_nonneg (show stateNonneg _ from hs) _

theorem discardCards_nonneg {s : GameState} (hs : stateNonneg s)
    (playerId : Nat) (cards : List (Res × Int))
    (hnd : (cards.map Prod.fst).Nodup) :
    resultNonneg (discardCards s playerId cards) := by
  unfold discardCards
  cases hplayer : s.players[playerId]? with
  | none => exact hs
  | some player =>
    dsimp only
    split
    · exact hs
    · split
      · exact hs
      · split
        · exact hs
        · rename_i hany
          have key : stateNonneg (updatePlayer s playerId fun p =>
              { p with
                resources := (cards.foldl (fun acc rc => acc.add rc.1 (-rc.2))
                  p.resources)
                mustDiscardCards := 0 }) := by
            apply stateNonneg_updatePlayer hs
            intro a ha
            rw [hplayer] at ha
            cases ha
            apply discardFold_nonneg cards _
              (hs player (List.getElem?_mem hplayer)) hnd
            intro rc hrc
            have h2 := List.any_eq_false.mp
              (Bool.eq_false_iff.mpr hany) rc hrc
            simp only [decide_eq_true_eq, not_lt] at h2
            exact h2
          split
          · exact key
          · show playersNonneg _
            exact key

end Catan

namespace Catan

theorem steal_error_nonneg {s : GameState} {a v k : Nat} {sE : GameState}
    (hs : stateNonneg s) (heq : stealRandomCardE s a v k = Except.error sE) :
    stateNonneg sE := by
  have h := @stealRandomCardE_nonneg s a v k hs
  rw [heq] at h
  exact h

theorem steal_ok_nonneg {s : GameState} {a v k : Nat} {s3 : GameState}
    (hs : stateNonneg s) (heq : stealRandomCardE s a v k = Except.ok s3) :
    stateNonneg s3 := by
  have h := @stealRandomCardE_nonneg s a v k hs
  rw [heq] at h
  exact h

theorem moveRobber_nonneg {s : GameState} (hs : stateNonneg s)
    (tileId : Nat) (targetPlayerId : Option Nat) (k : Nat) :
    resultNonneg (moveRobber s tileId targetPlayerId k) := by
  unfold moveRobber
  split
  · exact hs
  · cases htile : s.board.tiles[tileId]? with
    | none => exact hs
    | some tile =>
      dsimp only
      split
      · exact hs
      · cases hrp : s.board.robberPosition with
        | none =>
          dsimp only
          cases targetPlayerId with
          | none =>
            show playersNonneg _
            exact hs
          | some victimId =>
            dsimp only
            split
            · rename_i sE hsteal
              refine steal_error_nonneg ?_ hsteal
              show playersNonneg _
              exact hs
            · rename_i s3 hsteal
              have h3 := steal_ok_nonneg ?_ hsteal
              · show playersNonneg _
                exact h3
              · show playersNonneg _
                exact hs
        | some old =>
          dsimp only
          cases targetPlayerId with
          | none =>
            show playersNonneg _
            exact hs
          | some victimId =>
            dsimp only
            split
            · rename_i sE hsteal
              refine steal_error_nonneg ?_ hsteal
              show playersNonneg _
              exact hs
            · rename_i s3 hsteal
              have h3 := steal_ok_nonneg ?_ hsteal
              · show playersNonneg _
                exact h3
              · show playersNonneg _
                exact hs

theorem buildSettlement_nonneg {s : GameState} (hs : stateNonneg s)
    (nodeId : Nat) : resultNonneg (buildSettlement s nodeId) := by
  unfold buildSettlement
  split
  · exact hs
  · cases hplayer : s.players[s.currentPlayer]? with
    | none => exact hs
    | some player =>
      dsimp only
      split
      · exact hs
      · rename_i hcan
        split
        · exact hs
        · exact hs
        · refine checkLongestRoadS_nonneg (updateVictoryPointsS_nonneg ?_ _)
          show playersNonneg _
          apply playersNonneg_updateNth hs
          intro a ha
          rw [hplayer] at ha
          cases ha
          exact payFor_nonneg (not_not.mp hcan)
            (hs player (List.getElem?_mem hplayer))

theorem buildCity_nonneg {s : GameState} (hs : stateNonneg s)
    (nodeId : Nat) : resultNonneg (buildCity s nodeId) := by
  unfold buildCity
  split
  · exact hs
  · cases hplayer : s.players[s.currentPlayer]? with
    | none => exact hs
    | some player =>
      dsimp only
      split
      · exact hs
      · rename_i hcan
        cases hnode : s.board.nodes[nodeId]? with
        | none => exact hs
        | some node =>
          dsimp only
          split
          · exact hs
          · split
            · exact hs
            · refine updateVictoryPointsS_nonneg ?_ _
              show playersNonneg _
              apply playersNonneg_updateNth hs
              intro a ha
              rw [hplayer] at ha
              cases ha
              exact payFor_nonneg (not_not.mp hcan)
                (hs player (List.getElem?_mem hplayer))

theorem buildRoad_nonneg {s : GameState} (hs : stateNonneg s)
    (edgeId : Nat) : resultNonneg (buildRoad s edgeId) := by
  unfold buildRoad
  split
  · exact hs
  · cases hplayer : s.players[s.currentPlayer]? with
    | none => exact hs
    | some player =>
      dsimp only
      split
      · exact hs
      · rename_i hcan
        split
        · exact hs
        · exact hs
        · refine checkLongestRoadS_nonneg ?_
          show playersNonneg _
          apply playersNonneg_updateNth hs
          intro a ha
          rw [hplayer] at ha
          cases ha
          exact payFor_nonneg (not_not.mp hcan)
            (hs player (List.getElem?_mem hplayer))

theorem buyDevelopmentCard_nonneg {s : GameState} (hs : stateNonneg s) :
    resultNonneg (buyDevelopmentCard s) := by
  unfold buyDevelopmentCard
  split
  · exact hs
  · cases hplayer : s.players[s.currentPlayer]? with
    | none => exact hs
    | some player =>
      dsimp only
      split
      · exact hs
      · rename_i hcan
        split
        · exact hs
        · cases hlast : s.developmentCardDeck.getLast? with
          | none => exact hs
          | some cardType =>
            dsimp only
            refine updateVictoryPointsS_nonneg ?_ _
            show playersNonneg _
            apply playersNonneg_updateNth hs
            intro a ha
            have ha2 : s.players[s.currentPlayer]? = some a := ha
            rw [hplayer] at ha2
            cases ha2
            exact payFor_nonneg (not_not.mp hcan)
              (hs player (List.getElem?_mem hplayer))

theorem endTurn_nonneg {s : GameState} (hs : stateNonneg s) :
    resultNonneg (endTurn s) := by
  unfold endTurn
  split
  · exact hs
  · cases hplayer : s.players[s.currentPlayer]? with
    | none => exact hs
    | some player =>
      dsimp only
      refine checkVictoryConditionS_nonneg ?_
      show playersNonneg _
      exact playersNonneg_updateNth hs fun a ha => hs a (List.getElem?_mem ha)

end Catan

namespace Catan

theorem tradeWithBank_nonneg {s : GameState} (hs : stateNonneg s)
    (playerId : Nat) (giveResources : List (Res × Int)) (receiveResource : Res) :
    resultNonneg (tradeWithBank s playerId giveResources receiveResource) := by
  unfold tradeWithBank
  split
  · exact hs
  · split
    · exact hs
    · split
      · rename_i giveResourceType giveAmount
        split
        · exact hs
        · cases hplayer : s.players[playerId]? with
          | none => exact hs
          | some player =>
            dsimp only
            split
            · exact hs
            · rename_i hno
              apply stateNonneg_updatePlayer hs
              intro a ha
              rw [hplayer] at ha
              cases ha
              refine resNonneg_add
                (resNonneg_sub (hs player (List.getElem?_mem hplayer)) ?_) _
                (by omega)
              exact not_lt.mp hno
      · exact hs

theorem getPortTradeRatio_valid_shape {pt : PortType}
    {gv : List (Res × Int)} {r : Int}
    (h : getPortTradeRatio pt gv = .valid r) : ∃ a b, gv = [(a, b)] := by
  rcases gv with _ | ⟨⟨a, b⟩, _ | ⟨c, rest⟩⟩
  · simp [getPortTradeRatio] at h
  · exact ⟨a, b, rfl⟩
  · simp [getPortTradeRatio] at h

theorem tradeWithPort_nonneg {s : GameState} (hs : stateNonneg s)
    (playerId : Nat) (portType : PortType)
    (giveResources : List (Res × Int)) (receiveResource : Res) :
    resultNonneg
      (tradeWithPort s playerId portType giveResources receiveResource) := by
  unfold tradeWithPort
  split
  · exact hs
  · split
    · exact hs
    · split
      · exact hs
      · cases heq : getPortTradeRatio portType giveResources with
        | invalid msg => exact hs
        | valid ratio =>
          obtain ⟨gt, ga, rfl⟩ := getPortTradeRatio_valid_shape heq
          cases hplayer : s.players[playerId]? with
          | none => exact hs
          | some player =>
            dsimp only
            split
            · exact hs
            · rename_i hno
              apply stateNonneg_updatePlayer hs
              intro a ha
              rw [hplayer] at ha
              cases ha
              refine resNonneg_add
                (discardFold_nonneg _ _ (hs player (List.getElem?_mem hplayer))
                  (by simp) ?_) _ (by omega)
              intro rc hrc
              rw [List.mem_singleton] at hrc
              subst hrc
              simp only [List.any_cons, List.any_nil, Bool.or_false,
                decide_eq_true_eq] at hno
              exact not_lt.mp hno

theorem monoFold_nonneg (pid : Nat) (rt : Res) :
    ∀ (l : List Player) (acc : Int), 0 ≤ acc →
      0 ≤ l.foldl (fun acc p =>
        if p.id ≠ pid ∧ p.resources.get rt > 0 then acc + p.resources.get rt
        else acc) acc := by
  intro l
  induction l with
  | nil => intro acc hacc; exact hacc
  | cons p ps ih =>
    intro acc hacc
    apply ih
    dsimp only
    split
    · rename_i hcond
      have := hcond.2
      omega
    · exact hacc

theorem resNonneg_set_zero {m : Resources} (h : resNonneg m) (r : Res) :
    resNonneg (m.set r 0) := by
  intro q
  by_cases hq : q = r
  · subst hq
    rw [Resources.get_set_self]
  · rw [Resources.get_set_ne m 0 hq]
    exact h q

theorem playMonopoly_nonneg {s : GameState} (hs : stateNonneg s)
    (playerId : Nat) (resourceType : Res) :
    resultNonneg (playMonopoly s playerId resourceType) := by
  unfold playMonopoly
  cases hcp : canPlayDevelopmentCard s playerId .monopoly with
  | none => exact hs
  | some b =>
    cases b with
    | false => exact hs
    | true =>
      dsimp only
      refine stateNonneg_updatePlayer ?_ ?_
      · show playersNonneg _
        refine playersNonneg_map ?_
        intro p hp
        dsimp only
        split
        · exact resNonneg_set_zero (hs p hp) _
        · exact hs p hp
      · intro a ha
        have ham : a ∈ s.players.map fun p =>
            if p.id ≠ playerId ∧ p.resources.get resourceType > 0 then
              { p with resources := (p.resources.set resourceType 0) }
            else p := List.getElem?_mem ha
        rcases List.mem_map.mp ham with ⟨p, hp, rfl⟩
        have hpres : resNonneg (if p.id ≠ playerId ∧
            p.resources.get resourceType > 0 then
            { p with resources := (p.resources.set resourceType 0) }
          else p).resources := by
          split
          · exact resNonneg_set_zero (hs p hp) _
          · exact hs p hp
        exact resNonneg_add hpres _
          (monoFold_nonneg playerId resourceType s.players 0 le_rfl)

theorem playYearOfPlenty_nonneg {s : GameState} (hs : stateNonneg s)
    (playerId : Nat) (resources : List Res) :
    resultNonneg (playYearOfPlenty s playerId resources) := by
  unfold playYearOfPlenty
  cases hcp : canPlayDevelopmentCard s playerId .yearOfPlenty with
  | none => exact hs
  | some b =>
    cases b with
    | false => exact hs
    | true =>
      dsimp only
      split
      · exact hs
      · apply stateNonneg_updatePlayer hs
        intro a ha
        refine resNonneg_foldl ?_ _ _ (hs a (List.getElem?_mem ha))
        intro acc r hacc
        exact resNonneg_add hacc _ (by omega)

end Catan

namespace Catan

theorem playersNonneg_iff_get {l : List Player} :
    playersNonneg l ↔
      ∀ (i : Nat) (a : Player), l[i]? = some a → resNonneg a.resources := by
  constructor
  · intro h i a hia
    exact h a (List.getElem?_mem hia)
  · intro h p hp
    rcases List.mem_iff_getElem?.mp hp with ⟨i, hi⟩
    exact h i p hi

theorem resNonneg_foldl_mem {β : Type} {g : Resources → β → Resources} :
    ∀ (l : List β) (m : Resources), resNonneg m →
      (∀ b ∈ l, ∀ acc, resNonneg acc → resNonneg (g acc b)) →
      resNonneg (l.foldl g m) := by
  intro l
  induction l with
  | nil => intro m hm _; exact hm
  | cons b bs ih =>
    intro m hm hg
    exact ih (g m b) (hg b (List.mem_cons_self b bs) m hm)
      fun c hc => hg c (List.mem_cons_of_mem b hc)

theorem get_le_addFold :
    ∀ (l : List (Res × Int)) (m : Resources) (q : Res),
      (∀ rc ∈ l, 0 ≤ rc.2) →
      m.get q ≤ (l.foldl (fun m rc => m.add rc.1 rc.2) m).get q := by
  intro l
  induction l with
  | nil => intro m q _; exact le_rfl
  | cons rc rest ih =>
    intro m q hpos
    refine le_trans ?_ (ih (m.add rc.1 rc.2) q
      fun rc2 h2 => hpos rc2 (List.mem_cons_of_mem rc h2))
    by_cases hq : q = rc.1
    · subst hq
      rw [Resources.get_add_self]
      have := hpos rc (List.mem_cons_self rc rest)
      omega
    · rw [Resources.get_add_ne m rc.2 hq]

theorem transferFold_players (gid rid : Nat) (hne : gid ≠ rid) :
    ∀ (cards : List (Res × Int)) (acc : GameState),
      (∀ j, j ≠ gid → j ≠ rid →
        ((cards.foldl (fun acc rc =>
          updatePlayer (updatePlayer acc gid fun p =>
            { p with resources := (p.resources.add rc.1 (-rc.2)) }) rid fun p =>
            { p with resources := (p.resources.add rc.1 rc.2) }) acc).players[j]?
          = acc.players[j]?)) ∧
      ((cards.foldl (fun acc rc =>
          updatePlayer (updatePlayer acc gid fun p =>
            { p with resources := (p.resources.add rc.1 (-rc.2)) }) rid fun p =>
            { p with resources := (p.resources.add rc.1 rc.2) }) acc).players[gid]?
        = (acc.players[gid]?).map fun p =>
            { p with resources := (cards.foldl
                (fun m rc => m.add rc.1 (-rc.2)) p.resources) }) ∧
      ((cards.foldl (fun acc rc =>
          updatePlayer (updatePlayer acc gid fun p =>
            { p with resources := (p.resources.add rc.1 (-rc.2)) }) rid fun p =>
            { p with resources := (p.resources.add rc.1 rc.2) }) acc).players[rid]?
        = (acc.players[rid]?).map fun p =>
            { p with resources := (cards.foldl
                (fun m rc => m.add rc.1 rc.2) p.resources) }) := by
  intro cards
  induction cards with
  | nil =>
    intro acc
    simp only [List.foldl_nil]
    refine ⟨fun j _ _ => by trivial, ?_, ?_⟩
    · cases acc.players[gid]? <;> rfl
    · cases acc.players[rid]? <;> rfl
  | cons rc rest ih =>
    intro acc
    simp only [List.foldl_cons]
    refine ⟨?_, ?_, ?_⟩
    · intro j hg hr
      rw [(ih _).1 j hg hr, updatePlayer_get_ne _ _ _ _ hr,
        updatePlayer_get_ne _ _ _ _ hg]
    · rw [(ih _).2.1, updatePlayer_get_ne _ _ _ _ hne, updatePlayer_get_self,
        Option.map_map]
      cases acc.players[gid]? <;> rfl
    · rw [(ih _).2.2, updatePlayer_get_self,
        updatePlayer_get_ne _ _ _ _ (Ne.symm hne), Option.map_map]
      cases acc.players[rid]? <;> rfl

theorem transferFold_nonneg (gid rid : Nat) (hne : gid ≠ rid)
    (cards : List (Res × Int)) (acc : GameState) (hacc : stateNonneg acc)
    (hnd : (cards.map Prod.fst).Nodup)
    (hpos : ∀ rc ∈ cards, 0 ≤ rc.2)
    (havail : ∀ gp, acc.players[gid]? = some gp →
      ∀ rc ∈ cards, rc.2 ≤ gp.resources.get rc.1) :
    stateNonneg (cards.foldl (fun acc rc =>
      updatePlayer (updatePlayer acc gid fun p =>
        { p with resources := (p.resources.add rc.1 (-rc.2)) }) rid fun p =>
        { p with resources := (p.resources.add rc.1 rc.2) }) acc) := by
  have hch := transferFold_players gid rid hne cards acc
  rw [stateNonneg, playersNonneg_iff_get]
  intro i a hia
  by_cases hg : i = gid
  · subst hg
    rw [hch.2.1] at hia
    cases hgp : acc.players[i]? with
    | none => rw [hgp] at hia; exact absurd hia (by simp)
    | some gp =>
      rw [hgp] at hia
      have h2 := Option.some.inj hia
      subst h2
      exact discardFold_nonneg cards _ (hacc gp (List.getElem?_mem hgp)) hnd
        (havail gp hgp)
  · by_cases hr : i = rid
    · subst hr
      rw [hch.2.2] at hia
      cases htp : acc.players[i]? with
      | none => rw [htp] at hia; exact absurd hia (by simp)
      | some tp =>
        rw [htp] at hia
        have h2 := Option.some.inj hia
        subst h2
        refine resNonneg_foldl_mem cards _ (hacc tp (List.getElem?_mem htp)) ?_
        intro rc hrc m hm
        exact resNonneg_add hm _ (hpos rc hrc)
    · rw [hch.1 i hg hr] at hia
      exact hacc a (List.getElem?_mem hia)

theorem acceptPlayerTrade_nonneg {s : GameState} (hs : stateNonneg s)
    (trade : TradeOffer) (acceptingPlayerId : Nat)
    (hne : trade.fromPlayerId ≠ trade.toPlayerId)
    (hndo : (trade.offerResources.map Prod.fst).Nodup)
    (hndr : (trade.requestResources.map Prod.fst).Nodup)
    (hpo : ∀ rc ∈ trade.offerResources, 0 ≤ rc.2)
    (hpr : ∀ rc ∈ trade.requestResources, 0 ≤ rc.2) :
    resultNonneg (acceptPlayerTrade s trade acceptingPlayerId) := by
  unfold acceptPlayerTrade
  split
  · exact hs
  · split
    · exact hs
    · cases hfrom : s.players[trade.fromPlayerId]? with
      | none =>
        dsimp only
        exact hs
      | some fromPlayer =>
        cases hto : s.players[trade.toPlayerId]? with
        | none =>
          dsimp only
          exact hs
        | some toPlayer =>
          dsimp only
          split
          · exact hs
          · split
            · exact hs
            · rename_i h1 h2
              have havail1 : ∀ gp, s.players[trade.fromPlayerId]? = some gp →
                  ∀ rc ∈ trade.offerResources,
                    rc.2 ≤ gp.resources.get rc.1 := by
                intro gp hgp rc hrc
                rw [hfrom] at hgp
                have hgp2 := Option.some.inj hgp
                subst hgp2
                have h3 := List.any_eq_false.mp
                  (Bool.eq_false_iff.mpr h1) rc hrc
                simp only [decide_eq_true_eq, not_lt] at h3
                exact h3
              have hch := transferFold_players trade.fromPlayerId
                trade.toPlayerId hne trade.offerResources s
              have h1f := transferFold_nonneg _ _ hne trade.offerResources s
                hs hndo hpo havail1
              refine transferFold_nonneg _ _ (Ne.symm hne)
                trade.requestResources _ h1f hndr hpr ?_
              intro gp hgp rc hrc
              rw [hch.2.2, hto] at hgp
              have hgp2 := Option.some.inj hgp
              subst hgp2
              have hreq : rc.2 ≤ toPlayer.resources.get rc.1 := by
                have h3 := List.any_eq_false.mp
                  (Bool.eq_false_iff.mpr h2) rc hrc
                simp only [decide_eq_true_eq, not_lt] at h3
                exact h3
              exact le_trans hreq
                (get_le_addFold trade.offerResources toPlayer.resources rc.1
                  hpo)

end Catan

namespace Catan

/-- C9. From any state in which every player holds nonnegative resource
counts, every engine and trading command — initial placements, dice
production, discards, the robber steal, the three build commands, the
development-card purchase and plays, turn end, and the bank, port and
accepted peer trades — yields a state (error outcomes included) in which
every resource count is still nonnegative. The discard and peer-trade
requests carry the key-uniqueness (and, for accepted trades, the
positive-amount and distinct-party) facts that hold of every JS object
reaching them through `proposePlayerTrade` validation. -/
theorem claim_C9_nonneg_invariant (s : GameState) (hs : stateNonneg s) :
    (∀ nodeId, resultNonneg (placeInitialSettlement s nodeId)) ∧
    (∀ edgeId, resultNonneg (placeInitialRoad s edgeId)) ∧
    (∀ d1 d2, resultNonneg (rollDice s d1 d2)) ∧
    (∀ playerId cards, (List.map Prod.fst cards).Nodup →
      resultNonneg (discardCards s playerId cards)) ∧
    (∀ tileId target k, resultNonneg (moveRobber s tileId target k)) ∧
    (∀ nodeId, resultNonneg (buildSettlement s nodeId)) ∧
    (∀ nodeId, resultNonneg (buildCity s nodeId)) ∧
    (∀ edgeId, resultNonneg (buildRoad s edgeId)) ∧
    resultNonneg (buyDevelopmentCard s) ∧
    resultNonneg (endTurn s) ∧
    (∀ playerId gives recv,
      resultNonneg (tradeWithBank s playerId gives recv)) ∧
    (∀ playerId pt gives recv,
      resultNonneg (tradeWithPort s playerId pt gives recv)) ∧
    (∀ trade aid, trade.fromPlayerId ≠ trade.toPlayerId →
      (trade.offerResources.map Prod.fst).Nodup →
      (trade.requestResources.map Prod.fst).Nodup →
      (∀ rc ∈ trade.offerResources, 0 ≤ rc.2) →
      (∀ rc ∈ trade.requestResources, 0 ≤ rc.2) →
      resultNonneg (acceptPlayerTrade s trade aid)) ∧
    (∀ playerId rt, resultNonneg (playMonopoly s playerId rt)) ∧
    (∀ playerId rl, resultNonneg (playYearOfPlenty s playerId rl)) :=
  ⟨fun n => placeInitialSettlement_nonneg hs n,
   fun e => placeInitialRoad_nonneg hs e,
   fun d1 d2 => rollDice_nonneg hs d1 d2,
   fun pid cards hnd => discardCards_nonneg hs pid cards hnd,
   fun t v k => moveRobber_nonneg hs t v k,
   fun n => buildSettlement_nonneg hs n,
   fun n => buildCity_nonneg hs n,
   fun e => buildRoad_nonneg hs e,
   buyDevelopmentCard_nonneg hs,
   endTurn_nonneg hs,
   fun pid g r => tradeWithBank_nonneg hs pid g r,
   fun pid pt g r => tradeWithPort_nonneg hs pid pt g r,
   fun t a h1 h2 h3 h4 h5 => acceptPlayerTrade_nonneg hs t a h1 h2 h3 h4 h5,
   fun pid rt => playMonopoly_nonneg hs pid rt,
   fun pid rl => playYearOfPlenty_nonneg hs pid rl⟩

theorem claim_C9_witness :
    stateNonneg baseState ∧ resultNonneg (endTurn baseState) :=
  ⟨by decide,
   (claim_C9_nonneg_invariant baseState
     (by decide)).2.2.2.2.2.2.2.2.2.1⟩

end Catan

namespace Catan

/-! ## Error outcomes and the state they carry (C1) -/

/-- The state carried by an error outcome. -/
def errorStateOf : EngineResult → Option GameState
  | .error (_, sE) => some sE
  | .ok _ => none

theorem updatePlayer_length (s : GameState) (i : Nat) (f : Player → Player) :
    (updatePlayer s i f).players.length = s.players.length :=
  updateNth_length _ _ _

theorem steal_no_error {s : GameState} {a v k : Nat}
    (ha : a < s.players.length) (hv : v < s.players.length) :
    ∀ sE, stealRandomCardE s a v k ≠ Except.error sE := by
  intro sE h
  unfold stealRandomCardE at h
  rw [List.getElem?_eq_getElem hv] at h
  dsimp only at h
  split at h
  · exact Except.noConfusion h
  · split at h
    · rename_i hnone
      rw [List.getElem?_eq_none_iff, updatePlayer_length] at hnone
      omega
    · exact Except.noConfusion h

theorem pis_error_eq {s : GameState} {nodeId : Nat} {msg : String}
    {sE : GameState}
    (h : placeInitialSettlement s nodeId = Except.error (msg, sE)) : sE = s := by
  unfold placeInitialSettlement at h
  repeat' split at h
  all_goals try exact Except.noConfusion h
  all_goals try exact (congrArg Prod.snd (Except.error.inj h)).symm
  all_goals try dsimp only at h
  all_goals repeat' split at h
  all_goals try exact Except.noConfusion h
  all_goals exact (congrArg Prod.snd (Except.error.inj h)).symm

theorem pir_error_eq {s : GameState} {edgeId : Nat} {msg : String}
    {sE : GameState}
    (h : placeInitialRoad s edgeId = Except.error (msg, sE)) : sE = s := by
  unfold placeInitialRoad at h
  repeat' split at h
  all_goals try exact Except.noConfusion h
  all_goals try exact (congrArg Prod.snd (Except.error.inj h)).symm
  all_goals try dsimp only at h
  all_goals repeat' split at h
  all_goals try exact Except.noConfusion h
  all_goals exact (congrArg Prod.snd (Except.error.inj h)).symm

theorem rollDice_error_eq {s : GameState} {d1 d2 : Nat} {msg : String}
    {sE : GameState}
    (h : rollDice s d1 d2 = Except.error (msg, sE)) : sE = s := by
  unfold rollDice at h
  repeat' split at h
  all_goals try exact Except.noConfusion h
  all_goals try exact (congrArg Prod.snd (Except.error.inj h)).symm
  all_goals try dsimp only at h
  all_goals repeat' split at h
  all_goals try exact Except.noConfusion h
  all_goals exact (congrArg Prod.snd (Except.error.inj h)).symm

theorem discardCards_error_eq {s : GameState} {playerId : Nat}
    {cards : List (Res × Int)} {msg : String} {sE : GameState}
    (h : discardCards s playerId cards = Except.error (msg, sE)) : sE = s := by
  unfold discardCards at h
  repeat' split at h
  all_goals try exact Except.noConfusion h
  all_goals try exact (congrArg Prod.snd (Except.error.inj h)).symm
  all_goals try dsimp only at h
  all_goals repeat' split at h
  all_goals try exact Except.noConfusion h
  all_goals exact (congrArg Prod.snd (Except.error.inj h)).symm

theorem buildSettlement_error_eq {s : GameState} {nodeId : Nat} {msg : String}
    {sE : GameState}
    (h : buildSettlement s nodeId = Except.error (msg, sE)) : sE = s := by
  unfold buildSettlement at h
  repeat' split at h
  all_goals try exact Except.noConfusion h
  all_goals try exact (congrArg Prod.snd (Except.error.inj h)).symm
  all_goals try dsimp only at h
  all_goals repeat' split at h
  all_goals try exact Except.noConfusion h
  all_goals exact (congrArg Prod.snd (Except.error.inj h)).symm

theorem buildCity_error_eq {s : GameState} {nodeId : Nat} {msg : String}
    {sE : GameState}
    (h : buildCity s nodeId = Except.error (msg, sE)) : sE = s := by
  unfold buildCity at h
  repeat' split at h
  all_goals try exact Except.noConfusion h
  all_goals try exact (congrArg Prod.snd (Except.error.inj h)).symm
  all_goals try dsimp only at h
  all_goals repeat' split at h
  all_goals try exact Except.noConfusion h
  all_goals exact (congrArg Prod.snd (Except.error.inj h)).symm

theorem buildRoad_error_eq {s : GameState} {edgeId : Nat} {msg : String}
    {sE : GameState}
    (h : buildRoad s edgeId = Except.error (msg, sE)) : sE = s := by
  unfold buildRoad at h
  repeat' split at h
  all_goals try exact Except.noConfusion h
  all_goals try exact (congrArg Prod.snd (Except.error.inj h)).symm
  all_goals try dsimp only at h
  all_goals repeat' split at h
  all_goals try exact Except.noConfusion h
  all_goals exact (congrArg Prod.snd (Except.error.inj h)).symm

theorem buyDevelopmentCard_error_eq {s : GameState} {msg : String}
    {sE : GameState}
    (h : buyDevelopmentCard s = Except.error (msg, sE)) : sE = s := by
  unfold buyDevelopmentCard at h
  repeat' split at h
  all_goals try exact Except.noConfusion h
  all_goals try exact (congrArg Prod.snd (Except.error.inj h)).symm
  all_goals try dsimp only at h
  all_goals repeat' split at h
  all_goals try exact Except.noConfusion h
  all_goals exact (congrArg Prod.snd (Except.error.inj h)).symm

theorem endTurn_error_eq {s : GameState} {msg : String} {sE : GameState}
    (h : endTurn s = Except.error (msg, sE)) : sE = s := by
  unfold endTurn at h
  repeat' split at h
  all_goals try exact Except.noConfusion h
  all_goals try exact (congrArg Prod.snd (Except.error.inj h)).symm
  all_goals try dsimp only at h
  all_goals repeat' split at h
  all_goals try exact Except.noConfusion h
  all_goals exact (congrArg Prod.snd (Except.error.inj h)).symm

theorem tradeWithBank_error_eq {s : GameState} {playerId : Nat}
    {gives : List (Res × Int)} {recv : Res} {msg : String} {sE : GameState}
    (h : tradeWithBank s playerId gives recv = Except.error (msg, sE)) :
    sE = s := by
  unfold tradeWithBank at h
  repeat' split at h
  all_goals try exact Except.noConfusion h
  all_goals try exact (congrArg Prod.snd (Except.error.inj h)).symm
  all_goals try dsimp only at h
  all_goals repeat' split at h
  all_goals try exact Except.noConfusion h
  all_goals exact (congrArg Prod.snd (Except.error.inj h)).symm

theorem tradeWithPort_error_eq {s : GameState} {playerId : Nat}
    {pt : PortType} {gives : List (Res × Int)} {recv : Res} {msg : String}
    {sE : GameState}
    (h : tradeWithPort s playerId pt gives recv = Except.error (msg, sE)) :
    sE = s := by
  unfold tradeWithPort at h
  repeat' split at h
  all_goals try exact Except.noConfusion h
  all_goals try exact (congrArg Prod.snd (Except.error.inj h)).symm
  all_goals try dsimp only at h
  all_goals repeat' split at h
  all_goals try exact Except.noConfusion h
  all_goals exact (congrArg Prod.snd (Except.error.inj h)).symm

theorem acceptPlayerTrade_error_eq {s : GameState} {trade : TradeOffer}
    {aid : Nat} {msg : String} {sE : GameState}
    (h : acceptPlayerTrade s trade aid = Except.error (msg, sE)) : sE = s := by
  unfold acceptPlayerTrade at h
  repeat' split at h
  all_goals try exact Except.noConfusion h
  all_goals try exact (congrArg Prod.snd (Except.error.inj h)).symm
  all_goals try dsimp only at h
  all_goals repeat' split at h
  all_goals try exact Except.noConfusion h
  all_goals exact (congrArg Prod.snd (Except.error.inj h)).symm

theorem moveRobber_error_eq {s : GameState} {tileId : Nat}
    {target : Option Nat} {k : Nat} {msg : String} {sE : GameState}
    (hcur : s.currentPlayer < s.players.length)
    (hv : ∀ v, target = some v → v < s.players.length)
    (h : moveRobber s tileId target k = Except.error (msg, sE)) : sE = s := by
  unfold moveRobber at h
  repeat' split at h
  all_goals try exact Except.noConfusion h
  all_goals try exact (congrArg Prod.snd (Except.error.inj h)).symm
  all_goals try dsimp only at h
  all_goals repeat' split at h
  all_goals try exact Except.noConfusion h
  all_goals try exact (congrArg Prod.snd (Except.error.inj h)).symm
  all_goals refine absurd (by assumption) (steal_no_error ?_ ?_ _)
  all_goals first
    | exact hcur
    | exact hv _ rfl

end Catan

namespace Catan

/-- The C1 counterexample state: robber placement due, robber on tile 0,
a second tile to move to, and only two players. -/
def c1s : GameState :=
  { baseState with
    turnPhase := .robberPlacement
    board := { emptyBoard with
      tiles := [⟨0, 0, 0, .desert, none, true, true⟩,
        ⟨1, 1, 0, .res .wood, some 6, false, false⟩]
      robberPosition := some 0 } }

/-- Well-formedness of a state: every id stored in the state refers to an
existing entry. Each conjunct guards one family of dereferences that the
source performs after mutating: the current player slot, the tiles
adjacent to a node (`grantInitialResources`, the production loops), the
building nodes of a player (`produceResources`), the road edges of a
player (`buildRoadNetwork`), the endpoints of an edge (the DFS block
check), and the player-id lookups of `calculateLongestRoadForPlayer`.
On a malformed state those dereferences throw in the source after
mutations the embedding reads as skips. -/
def stateWF (s : GameState) : Prop :=
  s.currentPlayer < s.players.length ∧
  (∀ n ∈ s.board.nodes, ∀ t ∈ n.adjacentTiles,
    t < s.board.tiles.length) ∧
  (∀ p ∈ s.players, ∀ nid ∈ p.settlements, nid < s.board.nodes.length) ∧
  (∀ p ∈ s.players, ∀ nid ∈ p.cities, nid < s.board.nodes.length) ∧
  (∀ p ∈ s.players, ∀ eid ∈ p.roads, eid < s.board.edges.length) ∧
  (∀ e ∈ s.board.edges, e.fromNode < s.board.nodes.length ∧
    e.toNode < s.board.nodes.length) ∧
  (∀ p ∈ s.players, p.id < s.players.length)

instance (s : GameState) : Decidable (stateWF s) := by
  unfold stateWF
  infer_instance

/-- On a well-formed state every dereference that the embedding reads as
a skip succeeds, so the collapsed TypeError paths of
`grantInitialResources`, the production loops, `buildRoadNetwork`, the
DFS block check and `calculateLongestRoadForPlayer` are dead there. -/
theorem stateWF_no_dangling {s : GameState} (h : stateWF s) :
    (∀ n ∈ s.board.nodes, ∀ t ∈ n.adjacentTiles,
      (s.board.tiles[t]?).isSome = true) ∧
    (∀ p ∈ s.players, ∀ nid ∈ p.settlements,
      (s.board.nodes[nid]?).isSome = true) ∧
    (∀ p ∈ s.players, ∀ nid ∈ p.cities,
      (s.board.nodes[nid]?).isSome = true) ∧
    (∀ p ∈ s.players, ∀ eid ∈ p.roads,
      (s.board.edges[eid]?).isSome = true) ∧
    (∀ e ∈ s.board.edges, (s.board.nodes[e.fromNode]?).isSome = true ∧
      (s.board.nodes[e.toNode]?).isSome = true) ∧
    (∀ p ∈ s.players, (s.players[p.id]?).isSome = true) := by
  obtain ⟨-, h1, h2, h3, h4, h5, h6⟩ := h
  refine ⟨?_, ?_, ?_, ?_, ?_, ?_⟩
  · intro n hn t ht
    rw [List.getElem?_eq_getElem (h1 n hn t ht)]
    rfl
  · intro p hp nid hnid
    rw [List.getElem?_eq_getElem (h2 p hp nid hnid)]
    rfl
  · intro p hp nid hnid
    rw [List.getElem?_eq_getElem (h3 p hp nid hnid)]
    rfl
  · intro p hp eid heid
    rw [List.getElem?_eq_getElem (h4 p hp eid heid)]
    rfl
  · intro e he
    exact ⟨by rw [List.getElem?_eq_getElem (h5 e he).1]; rfl,
      by rw [List.getElem?_eq_getElem (h5 e he).2]; rfl⟩
  · intro p hp
    rw [List.getElem?_eq_getElem (h6 p hp)]
    rfl

/-- C1. On a well-formed state (`stateWF`: every stored id in range, so
the dereferences the source performs after mutating cannot throw), every
error exit of every command handler carries the pre-call state — with
one exception: a robber steal aimed at a dangling victim argument raises
its TypeError after the robber has moved, which the in-range-victim
hypothesis of the `moveRobber` conjunct rules out and the counterexample
exhibits on a well-formed state. -/
theorem claim_C1_error_leaves_state (s : GameState) (hwf : stateWF s) :
    (∀ nodeId msg sE,
      placeInitialSettlement s nodeId = Except.error (msg, sE) → sE = s) ∧
    (∀ edgeId msg sE,
      placeInitialRoad s edgeId = Except.error (msg, sE) → sE = s) ∧
    (∀ d1 d2 msg sE, rollDice s d1 d2 = Except.error (msg, sE) → sE = s) ∧
    (∀ playerId cards msg sE,
      discardCards s playerId cards = Except.error (msg, sE) → sE = s) ∧
    (∀ nodeId msg sE,
      buildSettlement s nodeId = Except.error (msg, sE) → sE = s) ∧
    (∀ nodeId msg sE,
      buildCity s nodeId = Except.error (msg, sE) → sE = s) ∧
    (∀ edgeId msg sE,
      buildRoad s edgeId = Except.error (msg, sE) → sE = s) ∧
    (∀ msg sE, buyDevelopmentCard s = Except.error (msg, sE) → sE = s) ∧
    (∀ msg sE, endTurn s = Except.error (msg, sE) → sE = s) ∧
    (∀ playerId gives recv msg sE,
      tradeWithBank s playerId gives recv = Except.error (msg, sE) → sE = s) ∧
    (∀ playerId pt gives recv msg sE,
      tradeWithPort s playerId pt gives recv = Except.error (msg, sE) →
        sE = s) ∧
    (∀ trade aid msg sE,
      acceptPlayerTrade s trade aid = Except.error (msg, sE) → sE = s) ∧
    (∀ tileId target k msg sE,
      (∀ v, target = some v → v < s.players.length) →
      moveRobber s tileId target k = Except.error (msg, sE) → sE = s) :=
  ⟨fun _ _ _ h => pis_error_eq h,
   fun _ _ _ h => pir_error_eq h,
   fun _ _ _ _ h => rollDice_error_eq h,
   fun _ _ _ _ h => discardCards_error_eq h,
   fun _ _ _ h => buildSettlement_error_eq h,
   fun _ _ _ h => buildCity_error_eq h,
   fun _ _ _ h => buildRoad_error_eq h,
   fun _ _ h => buyDevelopmentCard_error_eq h,
   fun _ _ h => endTurn_error_eq h,
   fun _ _ _ _ _ h => tradeWithBank_error_eq h,
   fun _ _ _ _ _ _ h => tradeWithPort_error_eq h,
   fun _ _ _ _ h => acceptPlayerTrade_error_eq h,
   fun _ _ _ _ _ hvv h => moveRobber_error_eq hwf.1 hvv h⟩

theorem claim_C1_counterexample :
    stateWF c1s ∧
    (errorStateOf (moveRobber c1s 1 (some 5) 0)).isSome = true ∧
    errorStateOf (moveRobber c1s 1 (some 5) 0) ≠ some c1s ∧
    ((errorStateOf (moveRobber c1s 1 (some 5) 0)).map
      fun x => x.board.robberPosition) = some (some 1) ∧
    c1s.board.robberPosition = some 0 := by
  decide

theorem claim_C1_witness :
    stateWF baseState ∧
    placeInitialSettlement baseState 0 =
      Except.error ("Not in setup phase", baseState) ∧
    baseState = baseState :=
  ⟨by decide, rfl,
   (claim_C1_error_leaves_state baseState (by decide)).1 0
     "Not in setup phase" baseState rfl⟩

end Catan

namespace Catan

/-! ## Node-tracking versus edge-tracking longest-road DFS (C5) -/

/-- A legal DFS path for the source DFS, read off the code: each step
follows the adjacency list, never revisits a node of the path or the
starting context, and never steps onto an opponent building. -/
def pathOk (nodes : List Node) (net : List (Nat × List Nat))
    (playerId : Nat) : List Nat → Nat → List Nat → Bool
  | _, _, [] => true
  | visited, current, nb :: rest =>
    decide (nb ∈ (netGet net current).getD []) &&
    !(decide (nb ∈ current :: visited)) &&
    !(blockedForB nodes playerId nb) &&
    pathOk nodes net playerId (current :: visited) nb rest

/-- The edge-tracking DFS that the specification describes: a step is
barred when its undirected edge was already walked, while nodes may be
revisited. Modelled from the words of the specification, to be compared
with the node-tracking `dfsLongestPath` of the source. -/
def specEdgeTrackingDfs (nodes : List Node) (net : List (Nat × List Nat))
    (playerId : Nat) : Nat → List (Nat × Nat) → Nat → Int
  | 0, _, _ => 0
  | fuel + 1, used, current =>
    let neighbors := (netGet net current).getD []
    neighbors.foldl (fun m neighbor =>
      if (current, neighbor) ∈ used ∨ (neighbor, current) ∈ used then m
      else if blockedForB nodes playerId neighbor then m
      else max m (1 + specEdgeTrackingDfs nodes net playerId fuel
        ((current, neighbor) :: used) neighbor)) 0

/-- The longest-road recomputation the specification describes, with the
edge-tracking DFS in place of the node-tracking one. -/
def specEdgeTrackingLongestRoad (s : GameState) (playerId : Nat) : Int :=
  match s.players[playerId]? with
  | none => 0
  | some player =>
    if player.roads.length = 0 then 0
    else
      let net := buildRoadNetwork s.board.edges player.roads
      (net.map Prod.fst).foldl (fun m startNode =>
        max m (specEdgeTrackingDfs s.board.nodes net playerId
          (player.roads.length + 1) [] startNode)) 0

/-- C5 counterexample state: player 0 owns the six roads of a closed
hexagonal loop on nodes 0 to 5. -/
def c5s : GameState :=
  { baseState with
    board := { emptyBoard with
      nodes := [plainNode 0, plainNode 1, plainNode 2, plainNode 3,
        plainNode 4, plainNode 5]
      edges := [⟨0, 0, 1, some 0⟩, ⟨1, 1, 2, some 0⟩, ⟨2, 2, 3, some 0⟩,
        ⟨3, 3, 4, some 0⟩, ⟨4, 4, 5, some 0⟩, ⟨5, 5, 0, some 0⟩] }
    players := [{ mkPlayer 0 with roads := [0, 1, 2, 3, 4, 5] },
      mkPlayer 1] }

end Catan

namespace Catan

theorem foldMax_spec (vis : List Nat) (g2 : Nat → Bool) (f : Nat → Int) :
    ∀ (l : List Nat) (m0 : Int),
      ((l.foldl (fun m x => if x ∈ vis then m else if g2 x then m
          else max m (f x)) m0 = m0) ∨
        ∃ nb ∈ l, nb ∉ vis ∧ g2 nb = false ∧
          l.foldl (fun m x => if x ∈ vis then m else if g2 x then m
            else max m (f x)) m0 = f nb) ∧
      (m0 ≤ l.foldl (fun m x => if x ∈ vis then m else if g2 x then m
          else max m (f x)) m0) ∧
      (∀ nb ∈ l, nb ∉ vis → g2 nb = false →
        f nb ≤ l.foldl (fun m x => if x ∈ vis then m else if g2 x then m
          else max m (f x)) m0) := by
  intro l
  induction l with
  | nil =>
    intro m0
    refine ⟨Or.inl rfl, le_rfl, ?_⟩
    intro nb h
    exact absurd h (List.not_mem_nil nb)
  | cons nb0 l ih =>
    intro m0
    simp only [List.foldl_cons]
    by_cases h1 : nb0 ∈ vis
    · rw [if_pos h1]
      refine ⟨?_, (ih m0).2.1, ?_⟩
      · rcases (ih m0).1 with h | ⟨nb, hm, ha, hb, hc⟩
        · exact Or.inl h
        · exact Or.inr ⟨nb, List.mem_cons_of_mem _ hm, ha, hb, hc⟩
      · intro nb hm ha hb
        rcases List.mem_cons.mp hm with rfl | hm2
        · exact absurd h1 ha
        · exact (ih m0).2.2 nb hm2 ha hb
    · rw [if_neg h1]
      by_cases h2 : g2 nb0 = true
      · rw [if_pos h2]
        refine ⟨?_, (ih m0).2.1, ?_⟩
        · rcases (ih m0).1 with h | ⟨nb, hm, ha, hb, hc⟩
          · exact Or.inl h
          · exact Or.inr ⟨nb, List.mem_cons_of_mem _ hm, ha, hb, hc⟩
        · intro nb hm ha hb
          rcases List.mem_cons.mp hm with rfl | hm2
          · exact Bool.noConfusion (h2.symm.trans hb)
          · exact (ih m0).2.2 nb hm2 ha hb
      · rw [if_neg h2]
        have hb0 : g2 nb0 = false := Bool.eq_false_iff.mpr h2
        refine ⟨?_, ?_, ?_⟩
        · rcases (ih (max m0 (f nb0))).1 with h | ⟨nb, hm, ha, hb, hc⟩
          · rcases le_total m0 (f nb0) with hle | hle
            · exact Or.inr ⟨nb0, List.mem_cons_self _ _, h1, hb0,
                by rw [h, max_eq_right hle]⟩
            · exact Or.inl (by rw [h, max_eq_left hle])
          · exact Or.inr ⟨nb, List.mem_cons_of_mem _ hm, ha, hb, hc⟩
        · exact le_trans (le_max_left m0 (f nb0)) (ih _).2.1
        · intro nb hm ha hb
          rcases List.mem_cons.mp hm with rfl | hm2
          · exact le_trans (le_max_right m0 (f nb)) (ih _).2.1
          · exact (ih _).2.2 nb hm2 ha hb

theorem dfs_sound (nodes : List Node) (net : List (Nat × List Nat))
    (playerId : Nat) :
    ∀ (fuel : Nat) (visited : List Nat) (current : Nat),
      ∃ p : List Nat, pathOk nodes net playerId visited current p = true ∧
        p.length ≤ fuel ∧
        dfsLongestPath nodes net playerId fuel visited current
          = (p.length : Int) := by
  intro fuel
  induction fuel with
  | zero => intro visited current; exact ⟨[], rfl, le_rfl, rfl⟩
  | succ fuel ih =>
    intro visited current
    have hun : dfsLongestPath nodes net playerId (fuel + 1) visited current
        = ((netGet net current).getD []).foldl (fun m x =>
            if x ∈ current :: visited then m
            else if blockedForB nodes playerId x then m
            else max m (1 + dfsLongestPath nodes net playerId fuel
              (current :: visited) x)) 0 := rfl
    obtain ⟨hcases, -, -⟩ := foldMax_spec (current :: visited)
      (blockedForB nodes playerId)
      (fun x => 1 + dfsLongestPath nodes net playerId fuel
        (current :: visited) x)
      ((netGet net current).getD []) 0
    rcases hcases with heq | ⟨nb, hmem, hnvis, hnblk, heq⟩
    · exact ⟨[], rfl, Nat.zero_le _, by rw [hun, heq]; rfl⟩
    · obtain ⟨p, hok, hlen, hval⟩ := ih (current :: visited) nb
      refine ⟨nb :: p, ?_, by simp only [List.length_cons]; omega, ?_⟩
      · simp [pathOk, hmem, hnvis, hnblk, hok]
      · rw [hun, heq]
        simp only [List.length_cons]
        rw [hval]
        push_cast
        ring

theorem dfs_complete (nodes : List Node) (net : List (Nat × List Nat))
    (playerId : Nat) :
    ∀ (fuel : Nat) (visited : List Nat) (current : Nat) (p : List Nat),
      pathOk nodes net playerId visited current p = true →
      p.length ≤ fuel →
      (p.length : Int)
        ≤ dfsLongestPath nodes net playerId fuel visited current := by
  intro fuel
  induction fuel with
  | zero =>
    intro visited current p hok hlen
    have hp : p = [] := List.eq_nil_of_length_eq_zero (Nat.le_zero.mp hlen)
    subst hp
    simp [dfsLongestPath]
  | succ fuel ih =>
    intro visited current p hok hlen
    have hun : dfsLongestPath nodes net playerId (fuel + 1) visited current
        = ((netGet net current).getD []).foldl (fun m x =>
            if x ∈ current :: visited then m
            else if blockedForB nodes playerId x then m
            else max m (1 + dfsLongestPath nodes net playerId fuel
              (current :: visited) x)) 0 := rfl
    obtain ⟨-, hge0, hgef⟩ := foldMax_spec (current :: visited)
      (blockedForB nodes playerId)
      (fun x => 1 + dfsLongestPath nodes net playerId fuel
        (current :: visited) x)
      ((netGet net current).getD []) 0
    rw [hun]
    cases p with
    | nil => simpa using hge0
    | cons nb rest =>
      simp only [pathOk, Bool.and_eq_true, decide_eq_true_eq,
        Bool.not_eq_true', decide_eq_false_iff_not] at hok
      obtain ⟨⟨⟨hmem, hnvis⟩, hnblk⟩, hok2⟩ := hok
      have h1 := hgef nb hmem hnvis hnblk
      have h2 := ih (current :: visited) nb rest hok2
        (by simp only [List.length_cons] at hlen; omega)
      simp only [List.length_cons]
      push_cast
      linarith

end Catan

namespace Catan

/-- C5. The longest-road DFS of the source tracks visited nodes, not
visited edges: its value equals the longest legal node-simple DFS path
within the fuel bound, a path that may reuse no node (the edge-tracking
reading of the specification is refuted by the closed-loop
counterexample, where the node-tracking value is 5 and the edge-tracking
one is 6). -/
theorem claim_C5_dfs_node_tracking (nodes : List Node)
    (net : List (Nat × List Nat)) (playerId fuel : Nat)
    (visited : List Nat) (current : Nat) :
    (∃ p : List Nat, pathOk nodes net playerId visited current p = true ∧
      p.length ≤ fuel ∧
      dfsLongestPath nodes net playerId fuel visited current
        = (p.length : Int)) ∧
    (∀ p : List Nat, pathOk nodes net playerId visited current p = true →
      p.length ≤ fuel →
      (p.length : Int)
        ≤ dfsLongestPath nodes net playerId fuel visited current) :=
  ⟨dfs_sound nodes net playerId fuel visited current,
   fun p hok hlen => dfs_complete nodes net playerId fuel visited current
     p hok hlen⟩

theorem claim_C5_counterexample :
    calculateLongestRoadForPlayer c5s 0 = 5 ∧
    specEdgeTrackingLongestRoad c5s 0 = 6 := by
  decide

theorem claim_C5_witness :
    pathOk c5s.board.nodes
      (buildRoadNetwork c5s.board.edges [0, 1, 2, 3, 4, 5]) 0 [] 0 [1, 2]
      = true ∧
    ((2 : Nat) : Int) ≤ dfsLongestPath c5s.board.nodes
      (buildRoadNetwork c5s.board.edges [0, 1, 2, 3, 4, 5]) 0 6 [] 0 :=
  ⟨by decide,
   (claim_C5_dfs_node_tracking c5s.board.nodes
     (buildRoadNetwork c5s.board.edges [0, 1, 2, 3, 4, 5]) 0 6 [] 0).2
     [1, 2] (by decide) (by decide)⟩

end Catan
